import Mathlib

/-!
Verification development for the Lightning Lens browser extension
(`src/background/index.ts`, `src/background/db.ts`, `public/inject.js`).

The background process of the extension captures Salesforce Aura RPC calls from
two channels (an injected page script and the Chrome debugger protocol),
stores them in an IndexedDB-backed log with trim-on-write retention, and
serves UI requests through a message router keyed by sender tab.

This file shallowly embeds the data model and the operations of those three
source files: machine values of the JavaScript runtime are modelled by
`JSVal` (integers standing in for JS numbers, with an explicit NaN), the
IndexedDB object store by a list of records sorted on demand, the per-tab
session map and describe cache by association lists with JS `Map` insertion
semantics, and the asynchronous message router by a state-passing function
whose result separates the responses actually sent from an exception that
escaped the handler boundary.
-/

namespace LightningLens

/-- Model of a JavaScript number as used by this code base: an integer or
NaN.  The code under verification only produces and compares integral
numbers (timestamps, counts, entry limits), so fractional values are out of
scope; `strToNumber` below returns NaN for any literal it cannot read as an
integer. -/
inductive JSNum where
  | nan
  | int (n : Int)
  deriving DecidableEq

/-- Model of a JavaScript value: the primitives plus structural objects and
arrays (fields in declaration order, as produced by `JSON.parse`). -/
inductive JSVal where
  | null
  | undefined
  | bool (b : Bool)
  | num (n : JSNum)
  | str (s : String)
  | obj (fields : List (String × JSVal))
  | arr (elems : List JSVal)

/-- JavaScript truthiness: `false`, `0`, `NaN`, `""`, `null` and
`undefined` are falsy, everything else (including every object and array)
is truthy. -/
def truthy : JSVal → Bool
  | .null => false
  | .undefined => false
  | .bool b => b
  | .num .nan => false
  | .num (.int n) => n != 0
  | .str s => s != ""
  | .obj _ => true
  | .arr _ => true

/-- SameValueZero key equality as used by JS `Map`.  Primitives compare by
value (with `NaN` equal to itself).  Objects and arrays compare by
reference in JS; in this code base every object-valued key originates from
a distinct `JSON.parse` or message deserialization, so two object keys
never coincide, which the `false` cases reflect. -/
def jsKeyEq : JSVal → JSVal → Bool
  | .null, .null => true
  | .undefined, .undefined => true
  | .bool a, .bool b => a == b
  | .num a, .num b => a == b
  | .str a, .str b => a == b
  | _, _ => false

/-- Property access with optional chaining (`v?.k`): `null` and
`undefined` yield `undefined`; an object yields the field or `undefined`;
any other primitive yields `undefined` (no own properties are modelled). -/
def fieldOpt : JSVal → String → JSVal
  | .obj fields, k =>
    match fields.find? (fun p => p.1 == k) with
    | some p => p.2
    | none => .undefined
  | _, _ => .undefined

/-- A thrown JavaScript error, reduced to the data this code base reads
from it: `message`, plus the `String(err)` rendering used by the page
interceptor when `message` is empty. -/
structure JsErr where
  message : String
  strRep : String := ""

/-- Plain property access (`v.k`): throws a TypeError on `null` and
`undefined`, otherwise behaves like `fieldOpt`. -/
def fieldStrict (v : JSVal) (k : String) : Except JsErr JSVal :=
  match v with
  | .null => .error { message := "Cannot read properties of null (reading " ++ k ++ ")" }
  | .undefined => .error { message := "Cannot read properties of undefined (reading " ++ k ++ ")" }
  | v => .ok (fieldOpt v k)

/-- Drop a literal from the front of a character list, returning the rest,
or `none` when the list does not start with the literal. -/
def dropLit : List Char → List Char → Option (List Char)
  | [], rest => some rest
  | c :: cs, d :: ds => if d = c then dropLit cs ds else none
  | _ :: _, [] => none

/-- Whitespace trim used by `Number(string)` coercion (ASCII whitespace
suffices for the values this code base sees). -/
def trimWs (l : List Char) : List Char :=
  ((l.dropWhile Char.isWhitespace).reverse.dropWhile Char.isWhitespace).reverse

/-- Read an unsigned decimal integer literal, in full. -/
def readDigits (l : List Char) : Option Nat :=
  if l.isEmpty then none
  else if l.all Char.isDigit then
    some (l.foldl (fun acc c => acc * 10 + (c.toNat - 48)) 0)
  else none

/-- Coercion `Number(string)` restricted to the integral literals this
code base can meet: trimmed empty string is `0`, an optionally signed
decimal integer is itself, anything else (including fractional literals,
out of scope here) is NaN. -/
def strToNumber (s : String) : JSNum :=
  match trimWs s.data with
  | [] => .int 0
  | '-' :: ds =>
    match readDigits ds with
    | some n => .int (-(n : Int))
    | none => .nan
  | '+' :: ds =>
    match readDigits ds with
    | some n => .int (n : Int)
    | none => .nan
  | ds =>
    match readDigits ds with
    | some n => .int (n : Int)
    | none => .nan

/-- Coercion `Number(value)`.  Objects coerce through
`"[object Object]"` to NaN; arrays of a single element coerce through
their string rendering (approximated by direct coercion for the numeric
and string payloads this code base sees). -/
def jsToNumber : JSVal → JSNum
  | .null => .int 0
  | .undefined => .nan
  | .bool true => .int 1
  | .bool false => .int 0
  | .num n => n
  | .str s => strToNumber s
  | .obj _ => .nan
  | .arr [] => .int 0
  | .arr [v] =>
    match v with
    | .null => .int 0
    | .undefined => .int 0
    | .bool _ => .nan
    | .arr _ => .nan
    | w => jsToNumber w
  | .arr (_ :: _ :: _) => .nan

end LightningLens

namespace LightningLens

/-! ## Persistent log store (`src/background/db.ts`) -/

/-- Terminal status of a captured call (`ApiCall.status` in `db.ts`). -/
inductive CallStatus where
  | Success
  | Error
  deriving DecidableEq

/-- Recognized call shape (`ApiCall.type` in `db.ts`). -/
inductive CallType where
  | ApexAction
  | RecordUi
  | Other
  deriving DecidableEq

/-- One captured call, mirroring the `ApiCall` interface of `db.ts` field
for field.  Timestamps are millisecond counts, hence integers. -/
structure ApiCall where
  id : String
  tabId : Int
  requestedAt : Int
  respondedAt : Int
  duration : Int
  requestPayload : JSVal
  responsePayload : JSVal
  status : CallStatus
  type : CallType

/-- The `apiCalls` object store.  IndexedDB keys the store by `id` and
keeps secondary indexes; the model keeps the records as a list in
insertion order and sorts on demand, which determines the same observable
results because `listAll` fixes the order by key. -/
abbrev DB := List ApiCall

/-- Byte-wise string order, the order IndexedDB applies to equal
`requestedAt` keys (the primary keys are ASCII UUID strings, for which
code-unit order and this order agree). -/
def strLeChars : List Char → List Char → Bool
  | [], _ => true
  | _ :: _, [] => false
  | c :: cs, d :: ds => if c = d then strLeChars cs ds else decide (c < d)

/-- Byte-wise string order over the underlying characters. -/
def strLe (a b : String) : Bool :=
  strLeChars a.data b.data

/-- Order of the `requestedAt` secondary index: by `requestedAt`, ties by
primary key. -/
def callLe (a b : ApiCall) : Bool :=
  a.requestedAt < b.requestedAt ||
    (a.requestedAt == b.requestedAt && strLe a.id b.id)

/-- Insertion step of the index-order sort. -/
def insertCall (c : ApiCall) : List ApiCall → List ApiCall
  | [] => [c]
  | d :: ds => if callLe c d then c :: d :: ds else d :: insertCall c ds

/-- Sort the store into `requestedAt` index order (ascending). -/
def sortCallsAsc : List ApiCall → List ApiCall
  | [] => []
  | c :: cs => insertCall c (sortCallsAsc cs)

/-- Operation `save` (`db.ts`): `db.add` rejects when a record with the same primary
key already exists, otherwise the record joins the store. -/
def dbSave (db : DB) (call : ApiCall) : Except JsErr DB :=
  if (List.any db fun c => c.id == call.id) then
    .error { message := "Key already exists in the object store." }
  else
    .ok (db ++ [call])

/-- Operation `get` (`db.ts`): look a record up by primary key.  The router passes
the raw payload value as the key, so the lookup compares it against the
stored string keys with IndexedDB key equality. -/
def dbGet (db : DB) (key : JSVal) : Option ApiCall :=
  List.find? (fun c => jsKeyEq key (.str c.id)) db

/-- Operation `listAll` (`db.ts`): all records in `requestedAt` index order, then
reversed, i.e. newest first. -/
def dbListAll (db : DB) : List ApiCall :=
  (sortCallsAsc db).reverse

/-- Operation `list` (`db.ts`): the records of one tab, sorted newest first
(the in-memory `sort` by descending `requestedAt`). -/
def dbList (db : DB) (tabId : Int) : List ApiCall :=
  (sortCallsAsc (List.filter (fun c => c.tabId == tabId) db)).reverse

/-- Operation `clear` (`db.ts`): delete every record of one tab. -/
def dbClear (db : DB) (tabId : Int) : DB :=
  List.filter (fun c => !(c.tabId == tabId)) db

/-- Operation `clearAll` (`db.ts`). -/
def dbClearAll (_db : DB) : DB := []

/-- Operation `deleteByIds` (`db.ts`): drop the records whose primary key occurs in
`ids` (a no-op for the empty list, as in the source). -/
def dbDeleteByIds (db : DB) (ids : List String) : DB :=
  if ids.length = 0 then db
  else List.filter (fun c => !(ids.contains c.id)) db

/-- JavaScript `Array.prototype.slice(start)` with a single, possibly
negative, start index. -/
def jsSliceFrom (l : List ApiCall) (start : Int) : List ApiCall :=
  if start < 0 then l.drop ((l.length + start).toNat)
  else l.drop start.toNat

/-- Function `trimDatabase` (`src/background/index.ts` lines 156-172): list all
records newest first; when the count exceeds `maxRequestEntries`, delete
everything after the first `maxRequestEntries` entries, i.e. the oldest
excess records. -/
def trimDatabase (maxRequestEntries : Int) (db : DB) : DB :=
  if ((dbListAll db).length : Int) > maxRequestEntries then
    if ((jsSliceFrom (dbListAll db) maxRequestEntries).map (fun c => c.id)).length > 0 then
      dbDeleteByIds db ((jsSliceFrom (dbListAll db) maxRequestEntries).map (fun c => c.id))
    else db
  else db

/-- One capture-channel write: `save(finalCall).then(trimDatabase)` in the
debugger listener.  A rejected `save` (duplicate key) skips the trim. -/
def writeAndTrim (maxRequestEntries : Int) (db : DB) (call : ApiCall) : DB :=
  match dbSave db call with
  | .error _ => db
  | .ok saved => trimDatabase maxRequestEntries saved

end LightningLens

namespace LightningLens

/-! ## Batch unwrap (`src/background/index.ts` lines 220-266)

The `Network.getResponseBody` callback parses the tracked request body and
the response body, builds a `Map` from response action id to response
action, then walks the request actions in request order, persisting one
`ApiCall` per request action that finds a truthy response action under its
id.  The model takes the two already-destructured action arrays
(`requestMessage.actions` and `responsePayload.actions`) as inputs. -/

/-- Result of one unwrap pass: the calls handed to `save` in order, and
the exception, if any, that ended the loop early (a thrown property access
on a nullish action). -/
structure UnwrapOut where
  saved : List ApiCall
  escaped : Option JsErr

/-- Build the entries of `new Map(responsePayload.actions.map(a => [a.id, a]))`
in iteration order; reading `a.id` throws on a nullish element. -/
def respMapEntries : List JSVal → Except JsErr (List (JSVal × JSVal))
  | [] => .ok []
  | a :: rest =>
    match fieldStrict a "id" with
    | .error e => .error e
    | .ok i =>
      match respMapEntries rest with
      | .error e => .error e
      | .ok tail => .ok ((i, a) :: tail)

/-- JS `Map.prototype.get` over entry lists: with duplicate keys the entry
set last wins. -/
def jsMapGet (entries : List (JSVal × JSVal)) (k : JSVal) : Option JSVal :=
  match entries.reverse.find? (fun p => jsKeyEq p.1 k) with
  | some p => some p.2
  | none => none

/-- State literal check `responseAction.state === "SUCCESS"`. -/
def stateIsSuccess : JSVal → Bool
  | .str s => s == "SUCCESS"
  | _ => false

/-- Build the `finalCall` record of one loop iteration. -/
def mkUnwrapCall (uuid : String) (tabId : Int) (ty : CallType)
    (requestedAt respondedAt : Int) (requestAction responseAction : JSVal) : ApiCall :=
  { id := uuid
    tabId := tabId
    type := ty
    requestedAt := requestedAt
    respondedAt := respondedAt
    duration := respondedAt - requestedAt
    requestPayload := requestAction
    responsePayload := responseAction
    status := if stateIsSuccess (fieldOpt responseAction "state") then .Success else .Error }

/-- The unwrap loop over the request actions.  `k` counts the
`crypto.randomUUID()` draws already spent, so `uuids k` is the id of the
next persisted call.  `Map.get` of an absent id yields `undefined`, and
`if (!responseAction) continue` skips any falsy lookup result. -/
def unwrapLoop (uuids : Nat → String) (tabId : Int) (ty : CallType)
    (requestedAt respondedAt : Int) (rmap : List (JSVal × JSVal)) :
    Nat → List JSVal → UnwrapOut
  | _, [] => { saved := [], escaped := none }
  | k, requestAction :: rest =>
    match fieldStrict requestAction "id" with
    | .error e => { saved := [], escaped := some e }
    | .ok rid =>
      let responseAction := (jsMapGet rmap rid).getD .undefined
      if truthy responseAction then
        let c := mkUnwrapCall (uuids k) tabId ty requestedAt respondedAt
          requestAction responseAction
        let out := unwrapLoop uuids tabId ty requestedAt respondedAt rmap (k + 1) rest
        { saved := c :: out.saved, escaped := out.escaped }
      else
        unwrapLoop uuids tabId ty requestedAt respondedAt rmap k rest

/-- The whole unwrap pass of one tracked request/response pair. -/
def unwrapCalls (uuids : Nat → String) (tabId : Int) (ty : CallType)
    (requestedAt respondedAt : Int)
    (requestActions respActions : List JSVal) : UnwrapOut :=
  match respMapEntries respActions with
  | .error e => { saved := [], escaped := some e }
  | .ok rmap => unwrapLoop uuids tabId ty requestedAt respondedAt rmap 0 requestActions

/-- Nullish test (the only values on which property reads throw). -/
def nullish : JSVal → Bool
  | .null => true
  | .undefined => true
  | _ => false

end LightningLens

namespace LightningLens

/-! ## Tab sessions (`src/background/index.ts` lines 16-185)

`tabsState` maps a tab id to its session; `initTabState` embeds
`initializeTabState`, re-validating the tab URL and the `sid` cookie on
every run.  The Chrome APIs it calls (tabs, cookies, debugger attach) are
supplied by a `ChromeEnv` oracle. -/

/-- Character class `[a-zA-Z0-9-.]` of the Salesforce URL regex. -/
def isUrlHostChar (c : Char) : Bool :=
  c.isAlpha || c.isDigit || c = '-' || c = '.'

/-- After the host characters, the regex requires
`\.(force|salesforce|visualforce)\.com` (further text may follow; the
pattern is unanchored). -/
def sfTail (l : List Char) : Bool :=
  (dropLit ".force.com".data l).isSome ||
    (dropLit ".salesforce.com".data l).isSome ||
    (dropLit ".visualforce.com".data l).isSome

/-- Match `[a-zA-Z0-9-.]+` followed by the Salesforce domain tail, trying
every split the backtracking regex engine would try. -/
def hostThenSf : List Char → Bool
  | [] => false
  | c :: rest => isUrlHostChar c && (sfTail rest || hostThenSf rest)

/-- Match `https?:\/\/` then host-and-domain starting at this position. -/
def matchesSfAt (l : List Char) : Bool :=
  match dropLit "http".data l with
  | none => false
  | some r1 =>
    (match r1 with
     | 's' :: r2 =>
       match dropLit "://".data r2 with
       | some r3 => hostThenSf r3
       | none => false
     | _ => false) ||
    (match dropLit "://".data r1 with
     | some r3 => hostThenSf r3
     | none => false)

/-- Unanchored search of the Salesforce URL regex
`/https?:\/\/[a-zA-Z0-9-.]+\.(force|salesforce|visualforce)\.com/`. -/
def containsSfMatch : List Char → Bool
  | [] => false
  | c :: rest => matchesSfAt (c :: rest) || containsSfMatch rest

/-- The `tabUrl.match(...)` test of `initializeTabState`. -/
def isSalesforceUrl (s : String) : Bool :=
  containsSfMatch s.data

/-- Locate the first `://` of a URL string, splitting scheme from rest. -/
def findSchemeSep (acc : List Char) : List Char → Option (List Char × List Char)
  | [] => none
  | c :: rest =>
    if c = ':' then
      match dropLit "//".data rest with
      | some r => some (acc.reverse, r)
      | none => findSchemeSep (c :: acc) rest
    else findSchemeSep (c :: acc) rest

/-- Model of `new URL(u).origin` for the canonical absolute URLs this
extension meets (scheme, host, optional path/query/fragment; userinfo,
ports and case normalization do not occur on the Chrome tab URLs in
scope).  `none` models the constructor throwing on a malformed URL. -/
def originOf (s : String) : Option String :=
  match findSchemeSep [] s.data with
  | none => none
  | some (scheme, rest) =>
    if scheme.isEmpty then none
    else
      let host := rest.takeWhile (fun c => !(c = '/' || c = '?' || c = '#'))
      if host.isEmpty then none
      else some (String.mk (scheme ++ "://".data ++ host))

/-- First-occurrence replacement, the semantics of JS
`String.prototype.replace` with a string pattern. -/
def replaceFirstChars (pat repl : List Char) : List Char → List Char
  | [] => []
  | c :: rest =>
    match dropLit pat (c :: rest) with
    | some r => repl ++ r
    | none => c :: replaceFirstChars pat repl rest

/-- The `.replace(".lightning.force.com", ".my.salesforce.com")`
normalization applied to the tab origin. -/
def normalizeInstanceUrl (origin : String) : String :=
  String.mk (replaceFirstChars ".lightning.force.com".data ".my.salesforce.com".data origin.data)

/-- The jsforce `Connection` as far as this extension uses it: the data it
is constructed from. -/
structure Connection where
  instanceUrl : String
  sessionId : String

/-- The per-tab debug flags.  `lwc` is declared boolean but assigned raw
payload values at runtime, so it is modelled as a JS value. -/
structure DebugFlags where
  apex : Bool
  lwc : JSVal

/-- Per-tab session state (`TabState` in `index.ts`). -/
structure TabState where
  sessionId : String
  instanceUrl : String
  jsforceConnection : Connection
  detectedSObjects : List String
  sObjectDescribeCache : List (JSVal × JSVal)
  debugFlags : DebugFlags

/-- JS `Map.prototype.get` for the tab-state map. -/
def tsGet (m : List (Nat × TabState)) (t : Nat) : Option TabState :=
  match m.find? (fun p => p.1 == t) with
  | some p => some p.2
  | none => none

/-- JS `Map.prototype.set`: update in place when the key exists, append
otherwise. -/
def tsSet (m : List (Nat × TabState)) (t : Nat) (st : TabState) : List (Nat × TabState) :=
  match m with
  | [] => [(t, st)]
  | p :: rest => if p.1 = t then (t, st) :: rest else p :: tsSet rest t st

/-- JS `Map.prototype.delete`. -/
def tsDelete (m : List (Nat × TabState)) (t : Nat) : List (Nat × TabState) :=
  m.filter (fun p => !(p.1 == t))

/-- Cache lookup with JS `Map` key equality (`sObjectDescribeCache`). -/
def cacheGet (m : List (JSVal × JSVal)) (k : JSVal) : Option JSVal :=
  match m.find? (fun p => jsKeyEq p.1 k) with
  | some p => some p.2
  | none => none

/-- Cache `set`: update in place when the key exists, append otherwise. -/
def cacheSet (m : List (JSVal × JSVal)) (k : JSVal) (v : JSVal) : List (JSVal × JSVal) :=
  match m with
  | [] => [(k, v)]
  | p :: rest => if jsKeyEq p.1 k then (k, v) :: rest else p :: cacheSet rest k v

/-- The background process state outside the message router: the session
map, the attached-debugger set, the two in-memory settings, and the log
store.  (The `chrome.storage` mirror and its change listener echo the
in-memory values and are not separately modelled; the debugger
pending-request map is modelled by `unwrapCalls` standalone.) -/
structure BgState where
  tabsState : List (Nat × TabState)
  attachedDebuggerTabs : List Nat
  isAuraCaptureEnabled : Bool
  maxRequestEntries : Int
  db : DB

/-- The browser facilities `initializeTabState` and the message handlers
call out to.  `tabUrl t = none` models `chrome.tabs.get` throwing (no such
tab); `some none` a tab without `url`.  `cookie u` is the value of the
`sid` cookie for instance URL `u`.  The four `ext*` oracles stand for the
jsforce remote calls of the four router cases that reach the network; an
`.error` result is the handler body throwing at any point. -/
structure ChromeEnv where
  tabUrl : Nat → Option (Option String)
  cookie : String → Option String
  attachOk : Nat → Bool
  extRecord : TabState → Except JsErr JSVal
  extUpdate : TabState → JSVal → Except JsErr JSVal
  extDescribe : TabState → JSVal → Except JsErr JSVal
  extLwcQuery : TabState → Except JsErr JSVal
  extLwcUpdate : TabState → JSVal → Except JsErr Unit

/-- Function `attachDebugger`: a no-op when already attached; otherwise the attach
succeeds (joining the set) or fails silently, per the environment. -/
def attachDebuggerM (env : ChromeEnv) (s : BgState) (t : Nat) : BgState :=
  if s.attachedDebuggerTabs.contains t then s
  else if env.attachOk t then
    { s with attachedDebuggerTabs := s.attachedDebuggerTabs ++ [t] }
  else s

/-- Function `detachDebugger`: a no-op when not attached, otherwise leaves the
set. -/
def detachDebuggerM (s : BgState) (t : Nat) : BgState :=
  if s.attachedDebuggerTabs.contains t then
    { s with attachedDebuggerTabs := s.attachedDebuggerTabs.filter (fun x => !(x == t)) }
  else s

/-- Drop the session of a tab (`tabsState.delete(tabId)`). -/
def dropSession (s : BgState) (tabId : Nat) : BgState :=
  { s with tabsState := tsDelete s.tabsState tabId }

/-- Install a fresh session for a tab (`tabsState.set(tabId, {...})`). -/
def setFreshSession (s : BgState) (tabId : Nat) (sid instanceUrl : String) : BgState :=
  { s with
    tabsState := tsSet s.tabsState tabId
      { sessionId := sid
        instanceUrl := instanceUrl
        jsforceConnection := { instanceUrl := instanceUrl, sessionId := sid }
        detectedSObjects := []
        sObjectDescribeCache := []
        debugFlags := { apex := false, lwc := .bool false } } }

/-- Function `initializeTabState` (`index.ts` lines 101-154): read the tab URL; on
a non-Salesforce URL drop the session and detach; otherwise normalize the
origin, read the `sid` cookie, drop the session when it is absent, keep
the session when the cookie value is unchanged, and otherwise replace it
with a fresh one.  Every failure of the browser calls is caught and leaves
the state unchanged. -/
def initTabState (env : ChromeEnv) (s : BgState) (tabId : Nat) : BgState :=
  match env.tabUrl tabId with
  | none => s
  | some urlOpt =>
    match urlOpt with
    | none => s
    | some tabUrl =>
      if tabUrl = "" then s
      else if !(isSalesforceUrl tabUrl) then
        dropSession (detachDebuggerM s tabId) tabId
      else
        match originOf tabUrl with
        | none => s
        | some origin =>
          match env.cookie (normalizeInstanceUrl origin) with
          | none => detachDebuggerM (dropSession s tabId) tabId
          | some sid =>
            match tsGet (attachDebuggerM env s tabId).tabsState tabId with
            | some st =>
              if st.sessionId = sid then attachDebuggerM env s tabId
              else setFreshSession (attachDebuggerM env s tabId) tabId sid (normalizeInstanceUrl origin)
            | none => setFreshSession (attachDebuggerM env s tabId) tabId sid (normalizeInstanceUrl origin)

end LightningLens

namespace LightningLens

/-! ## Message router (`src/background/index.ts` lines 269-446)

`onMessage` embeds the `chrome.runtime.onMessage` listener.  Its outcome
records the responses actually passed to `sendResponse`, in order, and the
exception (if any) that escaped the async dispatch block uncaught — such an
exception means no response is ever sent for the request. -/

/-- A payload handed to `sendResponse` on success.  `emptyBody` is
`sendResponse({status:"success"})` with no payload field; the list and
record constructors carry the log-store results. -/
inductive RespPayload where
  | emptyBody
  | js (v : JSVal)
  | call (c : Option ApiCall)
  | calls (cs : List ApiCall)

/-- A value passed to `sendResponse`. -/
inductive Response where
  | success (payload : RespPayload)
  | error (message : String)

/-- An inbound runtime message after destructuring
(`const { type, payload } = message`).  The absent-payload case is
`payload = undefined`. -/
structure Message where
  type : String
  payload : JSVal

/-- Outcome of handling one inbound message. -/
structure DispatchOut where
  state : BgState
  responses : List Response
  escaped : Option JsErr

/-- Function `handleApiRequest` (`index.ts` lines 271-288): no session means an
error response; otherwise the handler body runs inside `try`, so a throw
becomes `{status:"error", message}` and a normal return becomes
`{status:"success", payload}`.  Exactly one response is produced on every
path.  The body threads the tab state because handlers mutate it in
place. -/
def handleApiRequest (s : BgState) (tabId : Nat)
    (body : TabState → Except JsErr (RespPayload × TabState)) :
    BgState × Response :=
  match tsGet s.tabsState tabId with
  | none => (s, .error "Salesforce session not initialized for this tab.")
  | some st =>
    match body st with
    | .ok (p, st2) => ({ s with tabsState := tsSet s.tabsState tabId st2 }, .success p)
    | .error e => (s, .error e.message)

/-- Handler body of `GET_RECORD`: the tab-URL pattern check and the
jsforce retrieve are one remote round trip supplied by the environment
(any throw inside surfaces as the `.error` case). -/
def getRecordBody (env : ChromeEnv) (st : TabState) :
    Except JsErr (RespPayload × TabState) :=
  match env.extRecord st with
  | .error e => .error e
  | .ok v => .ok (.js v, st)

/-- Handler body of `UPDATE_RECORD`: validate the payload (property reads
on a nullish payload throw, as in the source), then call the remote
update. -/
def updateRecordBody (env : ChromeEnv) (payload : JSVal)
    (st : TabState) : Except JsErr (RespPayload × TabState) :=
  match fieldStrict payload "sObjectName" with
  | .error e => .error e
  | .ok sObjectName =>
    if !(truthy sObjectName) then
      .error { message := "Invalid payload for update." }
    else
      match fieldStrict payload "recordData" with
      | .error e => .error e
      | .ok recordData =>
        if !(truthy (fieldOpt recordData "Id")) then
          .error { message := "Invalid payload for update." }
        else
          match env.extUpdate st payload with
          | .error e => .error e
          | .ok r => .ok (.js r, st)

/-- Handler body of `DESCRIBE_SOBJECT` (`index.ts` lines 336-353): reject
a falsy name; return the cached description on a hit; otherwise fetch,
insert into the cache, and return the result. -/
def describeBody (env : ChromeEnv) (payload : JSVal)
    (st : TabState) : Except JsErr (RespPayload × TabState) :=
  match fieldStrict payload "sObjectName" with
  | .error e => .error e
  | .ok sObjectName =>
    if !(truthy sObjectName) then
      .error { message := "sObjectName is required." }
    else
      match cacheGet st.sObjectDescribeCache sObjectName with
      | some cached => .ok (.js cached, st)
      | none =>
        match env.extDescribe st sObjectName with
        | .error e => .error e
        | .ok result =>
          .ok (.js result,
            { st with sObjectDescribeCache := cacheSet st.sObjectDescribeCache sObjectName result })

/-- Handler body of `GET_LWC_DEBUG_STATUS`: the identity plus query remote
round trip is the oracle; `|| false` coerces a falsy preference to
`false`, and the flag is recorded on the tab state. -/
def lwcStatusBody (env : ChromeEnv) (st : TabState) :
    Except JsErr (RespPayload × TabState) :=
  match env.extLwcQuery st with
  | .error e => .error e
  | .ok pref =>
    let isEnabled := if truthy pref then pref else .bool false
    .ok (.js isEnabled, { st with debugFlags := { st.debugFlags with lwc := isEnabled } })

/-- Handler body of `TOGGLE_LWC_DEBUG`: read `payload.enabled` (throws on
a nullish payload), run the remote update, record and return the flag. -/
def lwcToggleBody (env : ChromeEnv) (payload : JSVal) (st : TabState) :
    Except JsErr (RespPayload × TabState) :=
  match fieldStrict payload "enabled" with
  | .error e => .error e
  | .ok enabled =>
    match env.extLwcUpdate st enabled with
    | .error e => .error e
    | .ok _ => .ok (.js enabled, { st with debugFlags := { st.debugFlags with lwc := enabled } })

/-- The value `Number(payload.value) || 500` stored by
`SET_MAX_REQUEST_ENTRIES`: a falsy coercion result (`0` or NaN) falls back
to the default 500. -/
def coerceMaxEntries (v : JSVal) : Int :=
  match jsToNumber v with
  | .nan => 500
  | .int k => if k = 0 then 500 else k

/-- The cases of the `switch (type)` statement, in source order. -/
inductive DispatchCase where
  | getRecord
  | updateRecord
  | describeSObject
  | getLwcDebugStatus
  | toggleLwcDebug
  | getApiCall
  | listApiCalls
  | listAllApiCalls
  | clearApiCalls
  | clearAllApiCalls
  | getMaxRequestEntries
  | setMaxRequestEntries
  | getAuraCaptureState
  | setAuraCaptureState
  | unknown
  deriving DecidableEq

/-- Which `case` label a message type selects (the `default` case for
everything else), comparing in source order as `switch` does. -/
def caseOf (type : String) : DispatchCase :=
  if type = "GET_RECORD" then .getRecord
  else if type = "UPDATE_RECORD" then .updateRecord
  else if type = "DESCRIBE_SOBJECT" then .describeSObject
  else if type = "GET_LWC_DEBUG_STATUS" then .getLwcDebugStatus
  else if type = "TOGGLE_LWC_DEBUG" then .toggleLwcDebug
  else if type = "GET_API_CALL" then .getApiCall
  else if type = "LIST_API_CALLS" then .listApiCalls
  else if type = "LIST_ALL_API_CALLS" then .listAllApiCalls
  else if type = "CLEAR_API_CALLS" then .clearApiCalls
  else if type = "CLEAR_ALL_API_CALLS" then .clearAllApiCalls
  else if type = "GET_MAX_REQUEST_ENTRIES" then .getMaxRequestEntries
  else if type = "SET_MAX_REQUEST_ENTRIES" then .setMaxRequestEntries
  else if type = "GET_AURA_CAPTURE_STATE" then .getAuraCaptureState
  else if type = "SET_AURA_CAPTURE_STATE" then .setAuraCaptureState
  else .unknown

/-- The `switch (type)` dispatch of the message listener
(`index.ts` lines 301-443), entered after `initializeTabState` ran for the
sender tab.  Each case either produces exactly one response, or — on the
paths that read their payload outside every `try` — lets a thrown error
escape, in which case `escaped` is set and no response is sent. -/
def dispatch (env : ChromeEnv) (s : BgState) (tabId : Nat) (m : Message) : DispatchOut :=
  match caseOf m.type with
  | .getRecord =>
    { state := (handleApiRequest s tabId (getRecordBody env)).1
      responses := [(handleApiRequest s tabId (getRecordBody env)).2]
      escaped := none }
  | .updateRecord =>
    { state := (handleApiRequest s tabId (updateRecordBody env m.payload)).1
      responses := [(handleApiRequest s tabId (updateRecordBody env m.payload)).2]
      escaped := none }
  | .describeSObject =>
    { state := (handleApiRequest s tabId (describeBody env m.payload)).1
      responses := [(handleApiRequest s tabId (describeBody env m.payload)).2]
      escaped := none }
  | .getLwcDebugStatus =>
    { state := (handleApiRequest s tabId (lwcStatusBody env)).1
      responses := [(handleApiRequest s tabId (lwcStatusBody env)).2]
      escaped := none }
  | .toggleLwcDebug =>
    { state := (handleApiRequest s tabId (lwcToggleBody env m.payload)).1
      responses := [(handleApiRequest s tabId (lwcToggleBody env m.payload)).2]
      escaped := none }
  | .getApiCall =>
    if !(truthy (fieldOpt m.payload "id")) then
      { state := s, responses := [],
        escaped := some { message := "An \x27id\x27 is required to get an API call." } }
    else
      { state := s, responses := [.success (.call (dbGet s.db (fieldOpt m.payload "id")))],
        escaped := none }
  | .listApiCalls =>
    { state := s, responses := [.success (.calls (dbList s.db tabId))], escaped := none }
  | .listAllApiCalls =>
    { state := s, responses := [.success (.calls (dbListAll s.db))], escaped := none }
  | .clearApiCalls =>
    { state := { s with db := dbClear s.db tabId }, responses := [.success .emptyBody],
      escaped := none }
  | .clearAllApiCalls =>
    { state := { s with db := dbClearAll s.db }, responses := [.success .emptyBody],
      escaped := none }
  | .getMaxRequestEntries =>
    { state := s,
      responses := [.success (.js (.obj [("value", .num (.int s.maxRequestEntries))]))],
      escaped := none }
  | .setMaxRequestEntries =>
    match fieldStrict m.payload "value" with
    | .error e => { state := s, responses := [], escaped := some e }
    | .ok v =>
      { state :=
          { s with
            maxRequestEntries := coerceMaxEntries v
            db := trimDatabase (coerceMaxEntries v) s.db }
        responses := [.success .emptyBody]
        escaped := none }
  | .getAuraCaptureState =>
    { state := s,
      responses := [.success (.js (.obj [("enabled", .bool s.isAuraCaptureEnabled)]))],
      escaped := none }
  | .setAuraCaptureState =>
    match fieldStrict m.payload "enable" with
    | .error e => { state := s, responses := [], escaped := some e }
    | .ok v =>
      { state := { s with isAuraCaptureEnabled := truthy v },
        responses := [.success .emptyBody], escaped := none }
  | .unknown =>
    { state := s, responses := [.error ("Unknown message type: " ++ m.type)],
      escaped := none }

/-- The sender-tab guard: `const tabId = sender.tab?.id; if (!tabId)` —
falsy for a missing tab and for tab id zero. -/
def senderTabFalsy : Option Nat → Bool
  | none => true
  | some t => t == 0

/-- The whole `chrome.runtime.onMessage` listener: reject senders without
a tab immediately and synchronously; otherwise run
`initializeTabState` for the sender tab and dispatch the message. -/
def onMessage (env : ChromeEnv) (s : BgState) (sender : Option Nat) (m : Message) :
    DispatchOut :=
  match sender with
  | none => { state := s, responses := [.error "Message must be sent from a tab."], escaped := none }
  | some tabId =>
    if tabId == 0 then
      { state := s, responses := [.error "Message must be sent from a tab."], escaped := none }
    else
      dispatch env (initTabState env s tabId) tabId m

/-- The tab lifecycle and message events the background listens to, each
carrying the wall-clock time at which it fires (the code never reads these
times; they only let temporal claims be stated). -/
inductive BgEvent where
  | activated (tabId : Nat) (time : Int)
  | updated (tabId : Nat) (statusComplete : Bool) (hasUrl : Bool) (time : Int)
  | removed (tabId : Nat) (time : Int)
  | message (sender : Option Nat) (m : Message) (time : Int)

/-- One background event step (`chrome.tabs.onActivated`, `onUpdated`,
`onRemoved`, and the message listener). -/
def bgStep (env : ChromeEnv) (s : BgState) : BgEvent → BgState
  | .activated tabId _ => initTabState env s tabId
  | .updated tabId statusComplete hasUrl _ =>
    if statusComplete && hasUrl then initTabState env s tabId else s
  | .removed tabId _ =>
    { (detachDebuggerM s tabId) with
      tabsState := tsDelete (detachDebuggerM s tabId).tabsState tabId }
  | .message sender m _ => (onMessage env s sender m).state

/-- Fold a trace of events (each with the environment current when it
fires) through the background state. -/
def runTrace (trace : List (ChromeEnv × BgEvent)) (s : BgState) : BgState :=
  trace.foldl (fun acc p => bgStep p.1 acc p.2) s

end LightningLens

namespace LightningLens

/-! ## Page-scope interceptor (`public/inject.js`)

`makeLogger` wraps a dispatch function: the wrapper draws a row id and a
timestamp, derives display names from the arguments, posts a START
message, invokes the underlying function, and posts a COMPLETE message
carrying either the settled result or the caught error (which it
rethrows).  The ambient `crypto.randomUUID()` and `Date.now()` reads are
threaded through an explicit `World`. -/

/-- JS string split on `"."`, faithful to `String.prototype.split`:
the empty string yields `[""]`, adjacent dots yield empty pieces. -/
def splitDot : List Char → List (List Char)
  | [] => [[]]
  | c :: rest =>
    let r := splitDot rest
    if c = '.' then [] :: r
    else
      match r with
      | [] => [[c]]
      | h :: t => (c :: h) :: t

mutual

/-- String coercion of a JS value (template literals, `+` with a
string). -/
def jsToString : JSVal → String
  | .null => "null"
  | .undefined => "undefined"
  | .bool true => "true"
  | .bool false => "false"
  | .num .nan => "NaN"
  | .num (.int n) => toString n
  | .str s => s
  | .obj _ => "[object Object]"
  | .arr elems => jsToStringArr elems

/-- Array `toString`: elements joined by commas, nullish elements
rendering empty. -/
def jsToStringArr : List JSVal → String
  | [] => ""
  | [e] => jsToStringElem e
  | e :: rest => jsToStringElem e ++ "," ++ jsToStringArr rest

/-- One array element inside `Array.prototype.toString`. -/
def jsToStringElem : JSVal → String
  | .null => ""
  | .undefined => ""
  | v => jsToString v

end

end LightningLens

namespace LightningLens

/-- The ambient sources the wrapper reads: a stream of
`crypto.randomUUID()` results and a stream of `Date.now()` readings,
each consumed in order. -/
structure World where
  uuidOf : Nat → String
  uuidIdx : Nat
  clockOf : Nat → Int
  clockIdx : Nat

/-- Draw `crypto.randomUUID()`. -/
def randomUUID (w : World) : String × World :=
  (w.uuidOf w.uuidIdx, { w with uuidIdx := w.uuidIdx + 1 })

/-- Read `Date.now()`. -/
def dateNow (w : World) : Int × World :=
  (w.clockOf w.clockIdx, { w with clockIdx := w.clockIdx + 1 })

/-- The value an underlying dispatch function resolves to, as far as the
wrapper inspects it: which of the four `ActionResult` accessor methods
exist, and what each returns.  A nullish resolved value is modelled by
`Option.none` at the use sites. -/
structure JsResult where
  getIdFn : Option JSVal := none
  getStateFn : Option JSVal := none
  getReturnValueFn : Option JSVal := none
  getErrorFn : Option JSVal := none

/-- The wrapper reads only the first two arguments by name
(`args[0]`, `args[1]`); the whole list is forwarded untouched via
`fn.apply(this, args)`, which threading the same `WrapArgs` captures. -/
structure WrapArgs where
  arg0 : JSVal
  arg1 : JSVal

/-- Payload of an `AURA_REQUEST_START` page message. -/
structure StartPayload where
  id : String
  scope : String
  functionName : JSVal
  name : String
  params : JSVal
  requestedAt : Int

/-- Payload of an `AURA_REQUEST_COMPLETE` page message. -/
structure CompletePayload where
  id : String
  auraActionId : JSVal
  state : JSVal
  returnValue : JSVal
  errors : JSVal
  requestedAt : Int
  respondedAt : Int

/-- A message posted to the page`s message channel by the wrapper. -/
inductive PageMsg where
  | start (p : StartPayload)
  | complete (p : CompletePayload)

/-- Result of running a page function: the advanced world, the messages
posted in order, and the settled value or the thrown error. -/
structure CoreOut where
  world : World
  msgs : List PageMsg
  result : Except JsErr (Option JsResult)

/-- A page-scope function as the interceptor sees it: its behavior, and
the `__wrapped` marker property. -/
structure PageFun where
  core : World → WrapArgs → CoreOut
  wrapped : Bool

/-- The name-derivation block of the wrapper (`inject.js` lines 34-51):
`qualified = args[0] || ""`, `params = args[1] || {}`, dot-splitting, and
the two payload-shape heuristics.  Calling `.split` on a truthy
non-string first argument throws. -/
def deriveNames (args : WrapArgs) : Except JsErr (String × JSVal × String × JSVal) :=
  let qualifiedV := if truthy args.arg0 then args.arg0 else .str ""
  let params := if truthy args.arg1 then args.arg1 else .obj []
  match qualifiedV with
  | .str qualified =>
    let parts := (splitDot qualified.data).map String.mk
    let scope := if (parts.headD "") = "" then "" else parts.headD ""
    let lastPart := parts.getLastD ""
    let functionName0 := if lastPart = "" then qualified else lastPart
    if scope = "ApexActionController" then
      let nsV := fieldOpt params "namespace"
      let ns := if truthy nsV then jsToString nsV ++ "." else ""
      let cls := if truthy (fieldOpt params "classname") then fieldOpt params "classname" else .str "Unknown"
      let method := if truthy (fieldOpt params "method") then fieldOpt params "method" else .str functionName0
      .ok (scope, method, ns ++ jsToString cls ++ "." ++ jsToString method, params)
    else if scope = "RecordUiController" && functionName0 = "getRecordWithFields" then
      let recordId := if truthy (fieldOpt params "recordId") then fieldOpt params "recordId" else .str ""
      .ok (scope, .str functionName0, "getRecordWithFields:" ++ jsToString recordId, params)
    else
      .ok (scope, .str functionName0, functionName0, params)
  | _ => .error { message := "qualified.split is not a function" }

/-- The COMPLETE payload of the success path: `auraActionId` from a
`getId` method when one exists, `state` defaulting to `"SUCCESS"` through
`??`, and the optional `getReturnValue`/`getError` reads. -/
def completeOkPayload (rowId : String) (requestedAt respondedAt : Int)
    (res : Option JsResult) : CompletePayload :=
  { id := rowId
    auraActionId :=
      match res with
      | some r => match r.getIdFn with | some v => v | none => .str ""
      | none => .str ""
    state :=
      match res with
      | some r =>
        match r.getStateFn with
        | some v => if nullish v then .str "SUCCESS" else v
        | none => .str "SUCCESS"
      | none => .str "SUCCESS"
    returnValue :=
      match res with
      | some r => match r.getReturnValueFn with | some v => v | none => .undefined
      | none => .undefined
    errors :=
      match res with
      | some r => match r.getErrorFn with | some v => v | none => .undefined
      | none => .undefined
    requestedAt := requestedAt
    respondedAt := respondedAt }

/-- The error message recorded on the failure path:
`err.message || String(err)`. -/
def errText (e : JsErr) : String :=
  if e.message = "" then e.strRep else e.message

/-- The COMPLETE payload of the failure path. -/
def completeErrPayload (rowId : String) (requestedAt respondedAt : Int)
    (e : JsErr) : CompletePayload :=
  { id := rowId
    auraActionId := .str ""
    state := .str "ERROR"
    returnValue := .undefined
    errors := .arr [.obj [("message", .str (errText e))]]
    requestedAt := requestedAt
    respondedAt := respondedAt }

/-- The wrapper body (`inject.js` lines 30-124): draw the row id and the
request timestamp, derive the names (a throw here precedes the START
post), post START, invoke the underlying function, then post COMPLETE and
return the value or rethrow the error unmodified. -/
def wrapperCore (f : PageFun) (w : World) (args : WrapArgs) : CoreOut :=
  let rowId := (randomUUID w).1
  let w1 := (randomUUID w).2
  let requestedAt := (dateNow w1).1
  let w2 := (dateNow w1).2
  match deriveNames args with
  | .error e => { world := w2, msgs := [], result := .error e }
  | .ok (scope, functionName, friendlyName, params) =>
    let startMsg : PageMsg := .start
      { id := rowId, scope := scope, functionName := functionName,
        name := friendlyName, params := params, requestedAt := requestedAt }
    let inner := f.core w2 args
    match inner.result with
    | .ok res =>
      let respondedAt := (dateNow inner.world).1
      { world := (dateNow inner.world).2
        msgs := startMsg :: (inner.msgs ++ [.complete (completeOkPayload rowId requestedAt respondedAt res)])
        result := .ok res }
    | .error e =>
      let respondedAt := (dateNow inner.world).1
      { world := (dateNow inner.world).2
        msgs := startMsg :: (inner.msgs ++ [.complete (completeErrPayload rowId requestedAt respondedAt e)])
        result := .error e }

/-- Function `makeLogger` (`inject.js` lines 27-127): an already-marked function is
returned unchanged; otherwise the wrapper is built and marked. -/
def makeLogger (f : PageFun) : PageFun :=
  if f.wrapped then f
  else { core := wrapperCore f, wrapped := true }

/-- Count of START messages in a posted-message list. -/
def countStarts (msgs : List PageMsg) : Nat :=
  (msgs.filter (fun m => match m with | .start _ => true | .complete _ => false)).length

/-- Count of COMPLETE messages in a posted-message list. -/
def countCompletes (msgs : List PageMsg) : Nat :=
  (msgs.filter (fun m => match m with | .start _ => false | .complete _ => true)).length

end LightningLens

namespace LightningLens

/-! ## Test fixtures -/

/-- A closed environment whose browser calls all fail or return nothing:
`chrome.tabs.get` throws for every tab, no cookies exist, the debugger
never attaches, every remote call rejects. -/
def offlineEnv : ChromeEnv where
  tabUrl := fun _ => none
  cookie := fun _ => none
  attachOk := fun _ => false
  extRecord := fun _ => .error { message := "offline" }
  extUpdate := fun _ _ => .error { message := "offline" }
  extDescribe := fun _ _ => .error { message := "offline" }
  extLwcQuery := fun _ => .error { message := "offline" }
  extLwcUpdate := fun _ _ => .error { message := "offline" }

/-- The background state right after service-worker start: empty maps,
default settings, empty store. -/
def emptyBg : BgState where
  tabsState := []
  attachedDebuggerTabs := []
  isAuraCaptureEnabled := true
  maxRequestEntries := 500
  db := []

/-- Environment whose describe fetch succeeds, returning a value derived
from the name. -/
def describeEnvOk : ChromeEnv :=
  { offlineEnv with extDescribe := fun _ n => .ok (.arr [n]) }

/-- A session state with an empty describe cache. -/
def freshTab : TabState where
  sessionId := "S"
  instanceUrl := "https://org.my.salesforce.com"
  jsforceConnection := { instanceUrl := "https://org.my.salesforce.com", sessionId := "S" }
  detectedSObjects := []
  sObjectDescribeCache := []
  debugFlags := { apex := false, lwc := .bool false }

/-- Run a sequence of DESCRIBE_SOBJECT handler bodies, one per name. -/
def describeMany (env : ChromeEnv) (names : List String) (st : TabState) : TabState :=
  names.foldl
    (fun acc nm =>
      match describeBody env (.obj [("sObjectName", .str nm)]) acc with
      | .ok (_, st2) => st2
      | .error _ => acc)
    st

/-- One hundred distinct schema-object names. -/
def names100 : List String :=
  (List.range 100).map (fun i => "SObj" ++ toString i)

/-- Does one `initializeTabState` run for tab `t` drop the session?  It
does exactly when the tab has a truthy URL and either the URL is not a
Salesforce URL, or it is one whose origin parses but whose `sid` cookie is
absent. -/
def initDrops (env : ChromeEnv) (t : Nat) : Bool :=
  match env.tabUrl t with
  | none => false
  | some none => false
  | some (some u) =>
    if u = "" then false
    else if !(isSalesforceUrl u) then true
    else
      match originOf u with
      | none => false
      | some origin =>
        match env.cookie (normalizeInstanceUrl origin) with
        | none => true
        | some _ => false

/-- Is this event a removal of tab `t`? -/
def evictsTab (e : BgEvent) (t : Nat) : Bool :=
  match e with
  | .removed t2 _ => t2 == t
  | _ => false

/-- Does this event trigger `initializeTabState` for tab `t`? -/
def initsTab (e : BgEvent) (t : Nat) : Bool :=
  match e with
  | .activated t2 _ => t2 == t
  | .updated t2 statusComplete hasUrl _ => t2 == t && statusComplete && hasUrl
  | .message (some t2) _ _ => t2 == t && !(t2 == 0)
  | _ => false

/-- An environment where tab 1 sits on a Lightning page with a valid
session cookie. -/
def sfEnv : ChromeEnv where
  tabUrl := fun t => if t = 1 then some (some "https://org.lightning.force.com/home") else none
  cookie := fun u => if u = "https://org.my.salesforce.com" then some "SID1" else none
  attachOk := fun _ => true
  extRecord := fun _ => .error { message := "offline" }
  extUpdate := fun _ _ => .error { message := "offline" }
  extDescribe := fun _ _ => .error { message := "offline" }
  extLwcQuery := fun _ => .error { message := "offline" }
  extLwcUpdate := fun _ _ => .error { message := "offline" }

/-- The jsforce-routed cases of the switch. -/
def routedCase (c : DispatchCase) : Bool :=
  match c with
  | .getRecord => true
  | .updateRecord => true
  | .describeSObject => true
  | .getLwcDebugStatus => true
  | .toggleLwcDebug => true
  | _ => false

/-- The entries the response `Map` is built from, when every response
action is non-nullish: each action keyed by its `id` field, in order. -/
def respEntriesD (respActions : List JSVal) : List (JSVal × JSVal) :=
  respActions.map (fun a => (fieldOpt a "id", a))

/-- Strictly increasing request timestamps. -/
def reqLt (a b : ApiCall) : Prop := a.requestedAt < b.requestedAt

instance : IsTrans ApiCall reqLt :=
  ⟨fun _ _ _ hab hbc => lt_trans hab hbc⟩

instance : DecidableRel reqLt :=
  fun a b => inferInstanceAs (Decidable (a.requestedAt < b.requestedAt))

/-! ## C9 — sender-tab guard -/

/-- C9: every inbound extension message whose sender has no tab identity
receives exactly the error response
"Message must be sent from a tab.", and the dispatch never runs: the
state is returned unchanged, no other response is sent, and nothing
escapes. -/
theorem c9_sender_tab_guard (env : ChromeEnv) (s : BgState) (m : Message) :
    onMessage env s none m =
      { state := s, responses := [.error "Message must be sent from a tab."],
        escaped := none } := rfl

/-! ## C7 — idempotent wrapping -/

/-- C7: `makeLogger` is idempotent — wrapping twice is literally the same
function as wrapping once, because the wrapper carries the `__wrapped`
marker — and a single invocation of the (once or twice) wrapped function
posts exactly one START and one COMPLETE message whenever the underlying
function posts none and the argument parse succeeds. -/
theorem c7_idempotent_wrapping (f : PageFun) :
    makeLogger (makeLogger f) = makeLogger f ∧
    (f.wrapped = false →
      ∀ (w : World) (args : WrapArgs) (nm : String × JSVal × String × JSVal),
        deriveNames args = .ok nm →
        (f.core (dateNow (randomUUID w).2).2 args).msgs = [] →
        countStarts ((makeLogger (makeLogger f)).core w args).msgs = 1 ∧
        countCompletes ((makeLogger (makeLogger f)).core w args).msgs = 1) := by
  constructor
  · by_cases h : f.wrapped
    · simp [makeLogger, h]
    · simp [makeLogger, h]
  · intro hw w args nm hnm hempty
    have hself : makeLogger (makeLogger f) = makeLogger f := by
      simp [makeLogger, hw]
    rw [hself]
    have hcore : (makeLogger f).core = wrapperCore f := by
      simp [makeLogger, hw]
    rw [hcore]
    unfold wrapperCore
    rw [hnm]
    obtain ⟨scope, functionName, friendly, params⟩ := nm
    rcases hres : (f.core (dateNow (randomUUID w).2).2 args).result with e | r <;>
      simp [hres, hempty, countStarts, countCompletes, List.filter]

/-- C7 witness: a concrete unmarked function posting nothing; the double
wrap emits exactly one START and one COMPLETE on a call. -/
theorem c7_idempotent_wrapping_witness :
    let f : PageFun :=
      { core := fun w _ => { world := w, msgs := [], result := .ok none },
        wrapped := false }
    let w : World := { uuidOf := fun _ => "u", uuidIdx := 0, clockOf := fun _ => 0, clockIdx := 0 }
    let args : WrapArgs := { arg0 := .str "ApexActionController.execute", arg1 := .undefined }
    makeLogger (makeLogger f) = makeLogger f ∧
    countStarts ((makeLogger (makeLogger f)).core w args).msgs = 1 ∧
    countCompletes ((makeLogger (makeLogger f)).core w args).msgs = 1 := by
  intro f w args
  have h := c7_idempotent_wrapping f
  refine ⟨h.1, h.2 rfl w args _ rfl rfl⟩

end LightningLens

namespace LightningLens

/-! ## C8 — wrapper transparency -/

/-- C8 amended: the wrapper is a transparent instrumentation layer on the
calling convention of the wrapped dispatchers.  For an already-marked function
wrapping changes nothing at all; for an unmarked function, whenever the
argument parse succeeds (the first argument is a string or falsy — the
calling convention of the two wrapped dispatch functions; a truthy
non-string first argument instead makes the wrapper itself throw before
the call, see the counterexample), the wrapper settles exactly as the
underlying call does — same resolved value, same thrown error,
unmodified — and on the error path the posted COMPLETE message records
the error message verbatim in its `errors` field with state `"ERROR"`. -/
theorem c8_wrapper_transparency (f : PageFun) (w : World) (args : WrapArgs) :
    (f.wrapped = true → makeLogger f = f) ∧
    (f.wrapped = false →
      ∀ nm, deriveNames args = .ok nm →
        (((makeLogger f).core w args).result =
          (f.core (dateNow (randomUUID w).2).2 args).result ∧
         ∀ e, (f.core (dateNow (randomUUID w).2).2 args).result = .error e →
           ((makeLogger f).core w args).result = .error e ∧
           ∃ p, ((makeLogger f).core w args).msgs.getLast? = some (.complete p) ∧
             p.errors = .arr [.obj [("message", .str (errText e))]] ∧
             p.state = .str "ERROR")) := by
  constructor
  · intro h; simp [makeLogger, h]
  · intro hw nm hnm
    have hcore : (makeLogger f).core = wrapperCore f := by
      simp [makeLogger, hw]
    obtain ⟨scope, functionName, friendly, params⟩ := nm
    rw [hcore]
    unfold wrapperCore
    rw [hnm]
    dsimp only
    rcases hres : (f.core (dateNow (randomUUID w).2).2 args).result with e | r
    · refine ⟨rfl, ?_⟩
      intro e2 he2
      obtain rfl : e = e2 := (Except.error.injEq _ _).mp he2
      refine ⟨rfl, completeErrPayload (randomUUID w).1 (dateNow (randomUUID w).2).1
        (dateNow (f.core (dateNow (randomUUID w).2).2 args).world).1 e, ?_, rfl, rfl⟩
      dsimp only
      rw [← List.cons_append, List.getLast?_concat]
    · refine ⟨rfl, ?_⟩
      intro e2 he2
      exact absurd he2 (by simp)

end LightningLens

namespace LightningLens

/-- C8 counterexample: with a truthy non-string first argument the
wrapper throws a TypeError in its own name-derivation code before ever
invoking the underlying function, so it does not preserve the original
return behavior on that argument list: the underlying function resolves
while the wrapped one throws. -/
theorem c8_counterexample_nonstring_arg :
    let f : PageFun :=
      { core := fun w _ => { world := w, msgs := [], result := .ok none },
        wrapped := false }
    let w : World := { uuidOf := fun _ => "u", uuidIdx := 0, clockOf := fun _ => 0, clockIdx := 0 }
    let args : WrapArgs := { arg0 := .num (.int 1), arg1 := .undefined }
    (f.core (dateNow (randomUUID w).2).2 args).result = .ok none ∧
    ((makeLogger f).core w args).result =
      .error { message := "qualified.split is not a function" } ∧
    ((makeLogger f).core w args).msgs = [] :=
  ⟨rfl, rfl, rfl⟩

/-- C8 witness: a concrete failing call through the wrapper — the error
comes back unmodified and the final COMPLETE message records its text. -/
theorem c8_wrapper_transparency_witness :
    let f : PageFun :=
      { core := fun w _ => { world := w, msgs := [], result := .error { message := "boom" } },
        wrapped := false }
    let w : World := { uuidOf := fun _ => "u", uuidIdx := 0, clockOf := fun _ => 0, clockIdx := 0 }
    let args : WrapArgs := { arg0 := .str "X.y", arg1 := .undefined }
    ((makeLogger f).core w args).result = .error { message := "boom" } ∧
    ∃ p, ((makeLogger f).core w args).msgs.getLast? = some (.complete p) ∧
      p.errors = .arr [.obj [("message", .str "boom")]] ∧
      p.state = .str "ERROR" := by
  intro f w args
  have h := (c8_wrapper_transparency f w args).2 rfl _ rfl
  obtain ⟨-, hp⟩ := h
  obtain ⟨h1, p, h2, h3, h4⟩ := hp { message := "boom" } rfl
  exact ⟨h1, p, h2, h3, h4⟩

end LightningLens

namespace LightningLens

/-! ## C10 — SET_MAX_REQUEST_ENTRIES coercion -/

/-- C10: the `SET_MAX_REQUEST_ENTRIES` case stores
`Number(payload.value) || 500`: the request always succeeds (one success
response, nothing escapes), the stored limit is the coerced value, a trim
pass with the new limit runs immediately after the response, and in
particular `0`, NaN, and non-numeric values (a non-numeric string,
`undefined`, `null`) all silently store the default 500 while a positive
numeric value is stored as given. -/
theorem c10_set_max_request_entries (env : ChromeEnv) (s : BgState) (tabId : Nat) (v : JSVal) :
    (dispatch env s tabId { type := "SET_MAX_REQUEST_ENTRIES", payload := .obj [("value", v)] } =
      { state :=
          { s with
            maxRequestEntries := coerceMaxEntries v
            db := trimDatabase (coerceMaxEntries v) s.db }
        responses := [.success .emptyBody]
        escaped := none }) ∧
    coerceMaxEntries (.num (.int 0)) = 500 ∧
    coerceMaxEntries (.num .nan) = 500 ∧
    coerceMaxEntries (.str "abc") = 500 ∧
    coerceMaxEntries .undefined = 500 ∧
    coerceMaxEntries .null = 500 ∧
    (∀ p : Int, 0 < p → coerceMaxEntries (.num (.int p)) = p) := by
  refine ⟨rfl, rfl, rfl, by decide, rfl, rfl, ?_⟩
  intro p hp
  have hne : p ≠ 0 := by omega
  simp [coerceMaxEntries, jsToNumber, hne]

/-- C10 witness: setting the limit to 3 stores 3 and trims; setting it to
0 stores the default 500. -/
theorem c10_set_max_request_entries_witness :
    (dispatch offlineEnv emptyBg 1
        { type := "SET_MAX_REQUEST_ENTRIES", payload := .obj [("value", .num (.int 3))] }
      ).state.maxRequestEntries = 3 ∧
    0 < (3 : Int) ∧ coerceMaxEntries (.num (.int 3)) = 3 := by
  have h := c10_set_max_request_entries offlineEnv emptyBg 1 (.num (.int 3))
  have h3 := h.2.2.2.2.2.2 3 (by decide)
  refine ⟨?_, by decide, h3⟩
  rw [h.1]
  exact h3

end LightningLens

namespace LightningLens

/-! ## C5 — the describe cache -/

/-- Key equality of the cache is plain equality: `jsKeyEq` only accepts
structurally equal primitives. -/
theorem jsKeyEq_eq {a b : JSVal} (h : jsKeyEq a b = true) : a = b := by
  cases a <;> cases b <;> simp_all [jsKeyEq]

/-- Unfolding lemma: a cache lookup checks the head entry first. -/
theorem cacheGet_cons (p : JSVal × JSVal) (l : List (JSVal × JSVal)) (k : JSVal) :
    cacheGet (p :: l) k = if jsKeyEq p.1 k then some p.2 else cacheGet l k := by
  by_cases h : jsKeyEq p.1 k <;> simp [cacheGet, List.find?, h]

/-- A `cacheSet` never removes a key: any key present before is present
after. -/
theorem cacheGet_isSome_of_set (m : List (JSVal × JSVal)) (k2 v k : JSVal)
    (h : (cacheGet m k).isSome = true) :
    (cacheGet (cacheSet m k2 v) k).isSome = true := by
  induction m with
  | nil => simp [cacheGet] at h
  | cons p rest ih =>
    rw [cacheGet_cons] at h
    by_cases hp : jsKeyEq p.1 k2
    · have hpk2 : p.1 = k2 := jsKeyEq_eq hp
      simp only [cacheSet, if_pos hp, cacheGet_cons]
      by_cases hk : jsKeyEq p.1 k
      · rw [← hpk2, if_pos hk]; simp
      · rw [← hpk2, if_neg hk]
        rw [if_neg hk] at h
        exact h
    · simp only [cacheSet, if_neg hp, cacheGet_cons]
      by_cases hk : jsKeyEq p.1 k
      · rw [if_pos hk]; simp
      · rw [if_neg hk]
        rw [if_neg hk] at h
        exact ih h

set_option maxRecDepth 100000 in
/-- C5 counterexample: the describe cache is not bounded by any fixed
small capacity and evicts nothing.  After describing 100 distinct names
the cache holds all 100 entries — contradicting a strict-LRU cache of a
"fixed small (tens of entries)" capacity, which would have evicted the
least-recently-touched names on every overflow insert. -/
theorem c5_counterexample_no_eviction :
    ((describeMany describeEnvOk names100 freshTab).sObjectDescribeCache).length = 100 ∧
    (names100.all fun nm =>
      (cacheGet (describeMany describeEnvOk names100 freshTab).sObjectDescribeCache
        (.str nm)).isSome) = true :=
  ⟨rfl, rfl⟩

end LightningLens

namespace LightningLens

/-- Helper: plain property access on a non-nullish value never throws and
agrees with the optional-chaining access. -/
theorem fieldStrict_ok {v : JSVal} (k : String) (h : nullish v = false) :
    fieldStrict v k = .ok (fieldOpt v k) := by
  cases v <;> simp_all [nullish, fieldStrict]

/-- Setting a key with reflexive key equality (every primitive key) makes
it retrievable. -/
theorem cacheGet_set_self (m : List (JSVal × JSVal)) (k v : JSVal)
    (hrefl : jsKeyEq k k = true) :
    cacheGet (cacheSet m k v) k = some v := by
  induction m with
  | nil => simp [cacheSet, cacheGet, List.find?, hrefl]
  | cons p rest ih =>
    by_cases hp : jsKeyEq p.1 k
    · simp [cacheSet, hp, cacheGet_cons, hrefl]
    · simp [cacheSet, hp, cacheGet_cons, ih]

/-- C5 amended: the schema-describe cache is an unbounded JS `Map` with no
capacity, no eviction and no LRU bookkeeping.  A hit returns the cached
value and leaves the cache (and its order) untouched; a successful
describe never removes any cached entry; and a miss that fetches
successfully caches the result under its (primitive) name. -/
theorem c5_amended_describe_cache_unbounded (env : ChromeEnv) (payload : JSVal) (st : TabState) :
    (∀ v, nullish payload = false →
      truthy (fieldOpt payload "sObjectName") = true →
      cacheGet st.sObjectDescribeCache (fieldOpt payload "sObjectName") = some v →
      describeBody env payload st = .ok (.js v, st)) ∧
    (∀ r st2, describeBody env payload st = .ok (r, st2) →
      ∀ k, (cacheGet st.sObjectDescribeCache k).isSome = true →
        (cacheGet st2.sObjectDescribeCache k).isSome = true) ∧
    (∀ result, nullish payload = false →
      truthy (fieldOpt payload "sObjectName") = true →
      jsKeyEq (fieldOpt payload "sObjectName") (fieldOpt payload "sObjectName") = true →
      cacheGet st.sObjectDescribeCache (fieldOpt payload "sObjectName") = none →
      env.extDescribe st (fieldOpt payload "sObjectName") = .ok result →
      ∃ st2, describeBody env payload st = .ok (.js result, st2) ∧
        cacheGet st2.sObjectDescribeCache (fieldOpt payload "sObjectName") = some result) := by
  refine ⟨?_, ?_, ?_⟩
  · intro v hn ht hc
    simp [describeBody, fieldStrict_ok _ hn, ht, hc]
  · intro r st2 hok k hk
    rw [describeBody] at hok
    split at hok
    · cases hok
    · split at hok
      · cases hok
      · split at hok
        · cases hok; exact hk
        · split at hok
          · cases hok
          · cases hok
            exact cacheGet_isSome_of_set _ _ _ _ hk
  · intro result hn ht hrefl hc hd
    refine ⟨{ st with sObjectDescribeCache := cacheSet st.sObjectDescribeCache (fieldOpt payload "sObjectName") result }, ?_, ?_⟩
    · simp [describeBody, fieldStrict_ok _ hn, ht, hc, hd]
    · exact cacheGet_set_self st.sObjectDescribeCache _ result hrefl

/-- C5 amended witness: a concrete hit returns the cached value and leaves
the cache unchanged. -/
theorem c5_amended_witness :
    let st : TabState :=
      { freshTab with sObjectDescribeCache := [(.str "Account", .str "descA")] }
    describeBody describeEnvOk (.obj [("sObjectName", .str "Account")]) st =
      .ok (.js (.str "descA"), st) := by
  intro st
  exact (c5_amended_describe_cache_unbounded describeEnvOk
    (.obj [("sObjectName", .str "Account")]) st).1 (.str "descA") rfl rfl rfl

end LightningLens


namespace LightningLens

/-! ## C6 — session lifetime -/

/-- Unfolding lemma for session-map lookups. -/
theorem tsGet_cons (p : Nat × TabState) (l : List (Nat × TabState)) (t : Nat) :
    tsGet (p :: l) t = if p.1 = t then some p.2 else tsGet l t := by
  by_cases h : p.1 = t
  · simp [tsGet, List.find?, h]
  · have hb : (p.1 == t) = false := beq_eq_false_iff_ne.mpr h
    simp [tsGet, List.find?, hb, h]

/-- Setting a tab key makes it present. -/
theorem tsGet_set_self (m : List (Nat × TabState)) (t : Nat) (st : TabState) :
    tsGet (tsSet m t st) t = some st := by
  induction m with
  | nil => simp [tsSet, tsGet_cons]
  | cons p rest ih =>
    by_cases hp : p.1 = t
    · simp [tsSet, hp, tsGet_cons]
    · simp [tsSet, hp, tsGet_cons, ih]

/-- Setting one tab key leaves every other key alone. -/
theorem tsGet_set_ne (m : List (Nat × TabState)) (t2 : Nat) (st : TabState) (t : Nat)
    (h : ¬ t = t2) :
    tsGet (tsSet m t2 st) t = tsGet m t := by
  have h2 : ¬ t2 = t := fun hh => h hh.symm
  induction m with
  | nil => simp [tsSet, tsGet_cons, h2, tsGet]
  | cons p rest ih =>
    by_cases hp : p.1 = t2
    · have hpt : ¬ p.1 = t := by rw [hp]; exact h2
      simp [tsSet, hp, tsGet_cons, h2, hpt]
    · by_cases hk : p.1 = t
      · simp [tsSet, hp, tsGet_cons, hk, h]
      · simp [tsSet, hp, tsGet_cons, hk, h, ih]

/-- Deleting one tab key leaves every other key alone. -/
theorem tsGet_delete_ne (m : List (Nat × TabState)) (t2 t : Nat) (h : ¬ t = t2) :
    tsGet (tsDelete m t2) t = tsGet m t := by
  induction m with
  | nil => simp [tsDelete, tsGet]
  | cons p rest ih =>
    by_cases hp : p.1 = t2
    · have hpt : ¬ p.1 = t := by rw [hp]; exact fun hh => h hh.symm
      have hb : (p.1 == t2) = true := beq_iff_eq.mpr hp
      simp [tsDelete, hb, tsGet_cons, hpt] at ih ⊢
      exact ih
    · by_cases hk : p.1 = t
      · have hb : (p.1 == t2) = false := beq_eq_false_iff_ne.mpr hp
        simp [tsDelete, List.filter_cons, hb, tsGet_cons, hk, h]
      · have hb : (p.1 == t2) = false := beq_eq_false_iff_ne.mpr hp
        simp [tsDelete, List.filter_cons, hb, tsGet_cons, hk, h] at ih ⊢
        exact ih

/-- Attaching the debugger never touches the session map. -/
theorem attach_tabsState (env : ChromeEnv) (s : BgState) (t : Nat) :
    (attachDebuggerM env s t).tabsState = s.tabsState := by
  unfold attachDebuggerM
  split
  · rfl
  · split <;> rfl

/-- Detaching the debugger never touches the session map. -/
theorem detach_tabsState (s : BgState) (t : Nat) :
    (detachDebuggerM s t).tabsState = s.tabsState := by
  unfold detachDebuggerM
  split <;> rfl

/-- A re-initialization of another tab cannot change the session of tab `t`. -/
theorem initTabState_tabs_ne (env : ChromeEnv) (s : BgState) (t2 t : Nat) (h : ¬ t = t2) :
    tsGet (initTabState env s t2).tabsState t = tsGet s.tabsState t := by
  rcases hturl : env.tabUrl t2 with _ | urlOpt
  · simp [initTabState, hturl]
  · rcases urlOpt with _ | u
    · simp [initTabState, hturl]
    · by_cases hu : u = ""
      · simp [initTabState, hturl, hu]
      · by_cases hsf : isSalesforceUrl u
        · rcases ho : originOf u with _ | origin
          · simp [initTabState, hturl, hu, hsf, ho]
          · rcases hck : env.cookie (normalizeInstanceUrl origin) with _ | sid
            · simp [initTabState, hturl, hu, hsf, ho, hck, dropSession,
                detach_tabsState, tsGet_delete_ne _ _ _ h]
            · rcases hts : tsGet (attachDebuggerM env s t2).tabsState t2 with _ | st
              all_goals rw [attach_tabsState] at hts
              · simp [initTabState, hturl, hu, hsf, ho, hck, hts, setFreshSession,
                  attach_tabsState, tsGet_set_ne _ _ _ _ h]
              · by_cases hsid : st.sessionId = sid
                · simp [initTabState, hturl, hu, hsf, ho, hck, hts, hsid, attach_tabsState]
                · simp [initTabState, hturl, hu, hsf, ho, hck, hts, hsid, setFreshSession,
                    attach_tabsState, tsGet_set_ne _ _ _ _ h]
        · simp [initTabState, hturl, hu, hsf, dropSession, detach_tabsState,
            tsGet_delete_ne _ _ _ h]

/-- A re-initialization that does not drop the session of tab `t` keeps it
present. -/
theorem initTabState_keeps (env : ChromeEnv) (s : BgState) (t : Nat)
    (hs : (tsGet s.tabsState t).isSome = true) (hd : initDrops env t = false) :
    (tsGet (initTabState env s t).tabsState t).isSome = true := by
  rcases hturl : env.tabUrl t with _ | urlOpt
  · simp [initTabState, hturl, hs]
  · rcases urlOpt with _ | u
    · simp [initTabState, hturl, hs]
    · by_cases hu : u = ""
      · simp [initTabState, hturl, hu, hs]
      · by_cases hsf : isSalesforceUrl u
        · rcases ho : originOf u with _ | origin
          · simp [initTabState, hturl, hu, hsf, ho, hs]
          · rcases hck : env.cookie (normalizeInstanceUrl origin) with _ | sid
            · exfalso
              simp [initDrops, hturl, hu, hsf, ho, hck] at hd
            · rcases hts : tsGet (attachDebuggerM env s t).tabsState t with _ | st
              all_goals rw [attach_tabsState] at hts
              · simp [initTabState, hturl, hu, hsf, ho, hck, hts, attach_tabsState,
                  setFreshSession, tsGet_set_self]
              · by_cases hsid : st.sessionId = sid
                · simp [initTabState, hturl, hu, hsf, ho, hck, attach_tabsState, hts, hsid]
                · simp [initTabState, hturl, hu, hsf, ho, hck, hts, hsid, attach_tabsState,
                    setFreshSession, tsGet_set_self]
        · exfalso
          simp [initDrops, hturl, hu, hsf] at hd

end LightningLens

namespace LightningLens

/-- Function `handleApiRequest` only ever touches the session slot of the sender tab. -/
theorem handleApiRequest_tabs_ne (s : BgState) (t2 : Nat)
    (body : TabState → Except JsErr (RespPayload × TabState)) (t : Nat) (h : ¬ t = t2) :
    tsGet (handleApiRequest s t2 body).1.tabsState t = tsGet s.tabsState t := by
  unfold handleApiRequest
  split
  · rfl
  · split
    · simp [tsGet_set_ne _ _ _ _ h]
    · rfl

/-- Function `handleApiRequest` never removes the session of the sender tab. -/
theorem handleApiRequest_keeps (s : BgState) (t2 : Nat)
    (body : TabState → Except JsErr (RespPayload × TabState))
    (hs : (tsGet s.tabsState t2).isSome = true) :
    (tsGet (handleApiRequest s t2 body).1.tabsState t2).isSome = true := by
  unfold handleApiRequest
  split
  · exact hs
  · split
    · simp [tsGet_set_self]
    · exact hs

/-- Shape of the session map after a dispatch: either untouched, or the
slot of the sender tab was set. -/
theorem handleApiRequest_tabsState_shape (s : BgState) (t2 : Nat)
    (body : TabState → Except JsErr (RespPayload × TabState)) :
    (handleApiRequest s t2 body).1.tabsState = s.tabsState ∨
    ∃ st2, (handleApiRequest s t2 body).1.tabsState = tsSet s.tabsState t2 st2 := by
  unfold handleApiRequest
  split
  · exact Or.inl rfl
  · split
    · exact Or.inr ⟨_, rfl⟩
    · exact Or.inl rfl

/-- Shape of the session map after a dispatch: either untouched, or the
slot of the sender tab was set. -/
theorem dispatch_tabsState_shape (env : ChromeEnv) (s : BgState) (t2 : Nat) (m : Message) :
    (dispatch env s t2 m).state.tabsState = s.tabsState ∨
    ∃ st2, (dispatch env s t2 m).state.tabsState = tsSet s.tabsState t2 st2 := by
  unfold dispatch
  split
  · exact handleApiRequest_tabsState_shape s t2 _
  · exact handleApiRequest_tabsState_shape s t2 _
  · exact handleApiRequest_tabsState_shape s t2 _
  · exact handleApiRequest_tabsState_shape s t2 _
  · exact handleApiRequest_tabsState_shape s t2 _
  · split
    · exact Or.inl rfl
    · exact Or.inl rfl
  · exact Or.inl rfl
  · exact Or.inl rfl
  · exact Or.inl rfl
  · exact Or.inl rfl
  · exact Or.inl rfl
  · split
    · exact Or.inl rfl
    · exact Or.inl rfl
  · exact Or.inl rfl
  · split
    · exact Or.inl rfl
    · exact Or.inl rfl
  · exact Or.inl rfl

/-- A dispatched message only ever touches the session slot of the sender tab. -/
theorem dispatch_tabs_ne (env : ChromeEnv) (s : BgState) (t2 : Nat) (m : Message) (t : Nat)
    (h : ¬ t = t2) :
    tsGet (dispatch env s t2 m).state.tabsState t = tsGet s.tabsState t := by
  rcases dispatch_tabsState_shape env s t2 m with hshape | ⟨st2, hshape⟩
  · rw [hshape]
  · rw [hshape, tsGet_set_ne _ _ _ _ h]

/-- A dispatched message never removes the session of the sender tab. -/
theorem dispatch_keeps (env : ChromeEnv) (s : BgState) (t2 : Nat) (m : Message)
    (hs : (tsGet s.tabsState t2).isSome = true) :
    (tsGet (dispatch env s t2 m).state.tabsState t2).isSome = true := by
  rcases dispatch_tabsState_shape env s t2 m with hshape | ⟨st2, hshape⟩
  · rw [hshape]; exact hs
  · rw [hshape, tsGet_set_self]; rfl

/-- One event step keeps the session of tab `t` whenever the event is not a
removal of `t` and any re-initialization of `t` it triggers does not drop
the session. -/
theorem bgStep_keeps (env : ChromeEnv) (s : BgState) (t : Nat) (e : BgEvent)
    (hs : (tsGet s.tabsState t).isSome = true)
    (hev : evictsTab e t = false)
    (hin : initsTab e t = true → initDrops env t = false) :
    (tsGet (bgStep env s e).tabsState t).isSome = true := by
  cases e with
  | activated t2 time =>
    by_cases ht2 : t2 = t
    · subst ht2
      exact initTabState_keeps env s t2 hs (hin (by simp [initsTab]))
    · have h : ¬ t = t2 := fun hh => ht2 hh.symm
      rw [bgStep, initTabState_tabs_ne env s t2 t h]
      exact hs
  | updated t2 sc hu time =>
    rcases hsc : sc && hu with _ | _
    · simp only [bgStep, hsc, Bool.false_eq_true, if_false]
      exact hs
    · simp only [bgStep, hsc, if_true]
      by_cases ht2 : t2 = t
      · subst ht2
        refine initTabState_keeps env s t2 hs (hin ?_)
        have hw : sc = true ∧ hu = true := by simpa using hsc
        simp [initsTab, hw.1, hw.2]
      · have h : ¬ t = t2 := fun hh => ht2 hh.symm
        rw [initTabState_tabs_ne env s t2 t h]
        exact hs
  | removed t2 time =>
    have ht2 : ¬ t = t2 := by
      intro hh
      subst hh
      simp [evictsTab] at hev
    simp only [bgStep]
    rw [tsGet_delete_ne _ _ _ ht2, detach_tabsState]
    exact hs
  | message sender m time =>
    cases sender with
    | none => exact hs
    | some t2 =>
      simp only [bgStep, onMessage]
      by_cases h0 : t2 == 0
      · simp only [h0, if_true]
        exact hs
      · simp only [h0, Bool.false_eq_true, if_false]
        by_cases ht2 : t2 = t
        · subst ht2
          refine dispatch_keeps env _ t2 m (initTabState_keeps env s t2 hs (hin ?_))
          simp [initsTab, h0]
        · have h : ¬ t = t2 := fun hh => ht2 hh.symm
          rw [dispatch_tabs_ne _ _ _ _ _ h, initTabState_tabs_ne env s t2 t h]
          exact hs

/-- C6 amended: there is no idle-based session eviction.  The session of a tab
is removed only by `chrome.tabs.onRemoved` for that tab or by a
re-initialization of that tab that finds a non-Salesforce URL or a
missing `sid` cookie; under any event trace free of those, the session
stays present regardless of how much time the trace timestamps let
pass. -/
theorem c6_amended_sessions_persist (trace : List (ChromeEnv × BgEvent)) (s : BgState) (t : Nat)
    (hs : (tsGet s.tabsState t).isSome = true)
    (hall : ∀ p ∈ trace,
      evictsTab p.2 t = false ∧ (initsTab p.2 t = true → initDrops p.1 t = false)) :
    (tsGet (runTrace trace s).tabsState t).isSome = true := by
  induction trace generalizing s with
  | nil => exact hs
  | cons p rest ih =>
    have h1 := hall p (by simp)
    exact ih (bgStep p.1 s p.2)
      (bgStep_keeps p.1 s t p.2 hs h1.1 h1.2)
      (fun q hq => hall q (by simp [hq]))

end LightningLens

namespace LightningLens

set_option maxRecDepth 100000 in
/-- C6 counterexample: there is no idle sweep.  The session of tab 1 is created
at time 0 and then left untouched for 10^9 ms — far beyond any fixed idle
threshold (the spec suggests about ten minutes, 600000 ms) — yet the next
access at time 10^9 still finds the session present, where the claim
demands it be absent. -/
theorem c6_counterexample_no_idle_eviction :
    (tsGet (runTrace
        [(sfEnv, .activated 1 0),
         (sfEnv, .message (some 1) { type := "GET_MAX_REQUEST_ENTRIES", payload := .undefined }
           1000000000)]
        emptyBg).tabsState 1).isSome = true ∧
    (1000000000 : Int) - 0 > 600000 :=
  ⟨rfl, by decide⟩

set_option maxRecDepth 100000 in
/-- C6 amended witness: a concrete non-evicting trace — a message from the
tab of the session long after creation — keeps the session present. -/
theorem c6_amended_witness :
    (tsGet (runTrace
        [(sfEnv, .message (some 1) { type := "LIST_API_CALLS", payload := .undefined } 999999999)]
        (runTrace [(sfEnv, .activated 1 0)] emptyBg)).tabsState 1).isSome = true := by
  apply c6_amended_sessions_persist
  · rfl
  · intro p hp
    rw [List.mem_singleton] at hp
    subst hp
    exact ⟨rfl, fun _ => rfl⟩

end LightningLens

namespace LightningLens

/-! ## C3 — START/COMPLETE lifecycle -/

/-- C3 evaluation at the failing input: the message router has no
`AURA_REQUEST_START` or `AURA_REQUEST_COMPLETE` case, so both lifecycle
events of one call (id `"r1"`) fall into the `default` arm, receive an
"Unknown message type" error response, and leave the store untouched — no
record for that id is ever created, let alone transitioned from PENDING
to a terminal state (the stored record type has no PENDING state at
all). -/
theorem c3_start_complete_unhandled :
    (onMessage offlineEnv emptyBg (some 1)
        { type := "AURA_REQUEST_START",
          payload := .obj [("id", .str "r1"), ("requestedAt", .num (.int 100))] }).responses =
      [.error "Unknown message type: AURA_REQUEST_START"] ∧
    (onMessage offlineEnv emptyBg (some 1)
        { type := "AURA_REQUEST_START",
          payload := .obj [("id", .str "r1"), ("requestedAt", .num (.int 100))] }).state =
      emptyBg ∧
    (onMessage offlineEnv emptyBg (some 1)
        { type := "AURA_REQUEST_COMPLETE",
          payload := .obj [("id", .str "r1"), ("state", .str "SUCCESS"),
            ("respondedAt", .num (.int 150))] }).responses =
      [.error "Unknown message type: AURA_REQUEST_COMPLETE"] ∧
    (onMessage offlineEnv emptyBg (some 1)
        { type := "AURA_REQUEST_COMPLETE",
          payload := .obj [("id", .str "r1"), ("state", .str "SUCCESS"),
            ("respondedAt", .num (.int 150))] }).state.db = [] ∧
    dbGet (onMessage offlineEnv emptyBg (some 1)
        { type := "AURA_REQUEST_COMPLETE",
          payload := .obj [("id", .str "r1"), ("state", .str "SUCCESS"),
            ("respondedAt", .num (.int 150))] }).state.db (.str "r1") = none :=
  ⟨rfl, rfl, rfl, rfl, rfl⟩

/-! ## C4 — router error discipline -/

/-- C4 counterexample: a `GET_API_CALL` message without an `id` throws
outside every `try`, so the thrown error escapes the listener and no
response at all is sent — refuting "catches all exceptions at its
boundary" and "exactly one response per request". -/
theorem c4_counterexample_uncaught_throw :
    onMessage offlineEnv emptyBg (some 1) { type := "GET_API_CALL", payload := .obj [] } =
      { state := emptyBg, responses := [],
        escaped := some { message := "An \x27id\x27 is required to get an API call." } } := rfl

/-- C4 amended: the error discipline holds for every case routed through
`handleApiRequest` — exactly one response, nothing escapes, a missing
session and a thrown handler both convert to `{status:"error", message}` —
and an unrecognized message type receives an error response rather than
being dropped; but the cases that read their payload directly
(`GET_API_CALL` with a falsy id, and `SET_MAX_REQUEST_ENTRIES` /
`SET_AURA_CAPTURE_STATE` with a nullish payload) throw outside every
`try`, send no response, and let the exception escape the listener. -/
theorem c4_amended_router_error_discipline (env : ChromeEnv) (s : BgState) (tabId : Nat)
    (m : Message) :
    (routedCase (caseOf m.type) = true →
      (dispatch env s tabId m).responses.length = 1 ∧
      (dispatch env s tabId m).escaped = none) ∧
    (routedCase (caseOf m.type) = true → tsGet s.tabsState tabId = none →
      (dispatch env s tabId m).responses =
        [.error "Salesforce session not initialized for this tab."]) ∧
    (∀ st e, caseOf m.type = .getRecord → tsGet s.tabsState tabId = some st →
      env.extRecord st = .error e →
      (dispatch env s tabId m).responses = [.error e.message]) ∧
    (m.type ∉ ["GET_RECORD", "UPDATE_RECORD", "DESCRIBE_SOBJECT", "GET_LWC_DEBUG_STATUS",
        "TOGGLE_LWC_DEBUG", "GET_API_CALL", "LIST_API_CALLS", "LIST_ALL_API_CALLS",
        "CLEAR_API_CALLS", "CLEAR_ALL_API_CALLS", "GET_MAX_REQUEST_ENTRIES",
        "SET_MAX_REQUEST_ENTRIES", "GET_AURA_CAPTURE_STATE", "SET_AURA_CAPTURE_STATE"] →
      (dispatch env s tabId m).responses = [.error ("Unknown message type: " ++ m.type)] ∧
      (dispatch env s tabId m).escaped = none) ∧
    (caseOf m.type = .getApiCall → truthy (fieldOpt m.payload "id") = false →
      (dispatch env s tabId m).responses = [] ∧
      (dispatch env s tabId m).escaped =
        some { message := "An \x27id\x27 is required to get an API call." }) := by
  have hunknown : m.type ∉ ["GET_RECORD", "UPDATE_RECORD", "DESCRIBE_SOBJECT",
      "GET_LWC_DEBUG_STATUS", "TOGGLE_LWC_DEBUG", "GET_API_CALL", "LIST_API_CALLS",
      "LIST_ALL_API_CALLS", "CLEAR_API_CALLS", "CLEAR_ALL_API_CALLS",
      "GET_MAX_REQUEST_ENTRIES", "SET_MAX_REQUEST_ENTRIES", "GET_AURA_CAPTURE_STATE",
      "SET_AURA_CAPTURE_STATE"] → caseOf m.type = .unknown := by
    intro h
    simp only [List.mem_cons, List.mem_singleton, not_or] at h
    obtain ⟨h1, h2, h3, h4, h5, h6, h7, h8, h9, h10, h11, h12, h13, h14⟩ := h
    simp [caseOf, h1, h2, h3, h4, h5, h6, h7, h8, h9, h10, h11, h12, h13, h14]
  refine ⟨?_, ?_, ?_, ?_, ?_⟩
  · intro hr
    unfold dispatch
    rcases hc : caseOf m.type <;> rw [hc] at hr <;> simp [routedCase] at hr <;>
      exact ⟨rfl, rfl⟩
  · intro hr hsess
    unfold dispatch
    rcases hc : caseOf m.type <;> rw [hc] at hr <;> simp [routedCase] at hr <;>
      simp [handleApiRequest, hsess]
  · intro st e hc hsess herr
    unfold dispatch
    rw [hc]
    simp [handleApiRequest, hsess, getRecordBody, herr]
  · intro h
    have hc := hunknown h
    unfold dispatch
    rw [hc]
    exact ⟨rfl, rfl⟩
  · intro hc hid
    unfold dispatch
    rw [hc]
    simp [hid]

end LightningLens

namespace LightningLens

/-- C4 amended witness: an unrecognized type gets exactly the unknown-type
error response, and a routed type with no session gets exactly the
no-session error response. -/
theorem c4_amended_witness :
    (dispatch offlineEnv emptyBg 1 { type := "BOGUS_TYPE", payload := .undefined }).responses =
      [.error "Unknown message type: BOGUS_TYPE"] ∧
    (dispatch offlineEnv emptyBg 1 { type := "GET_RECORD", payload := .undefined }).responses =
      [.error "Salesforce session not initialized for this tab."] := by
  have h1 := c4_amended_router_error_discipline offlineEnv emptyBg 1
    { type := "BOGUS_TYPE", payload := .undefined }
  have h2 := c4_amended_router_error_discipline offlineEnv emptyBg 1
    { type := "GET_RECORD", payload := .undefined }
  exact ⟨(h1.2.2.2.1 (by decide)).1, h2.2.1 rfl rfl⟩

/-! ## C1 — batch unwrap -/

/-- Building the response map succeeds on non-nullish actions and yields
exactly the id-keyed entries. -/
theorem respMapEntries_ok (respActions : List JSVal)
    (h : ∀ a ∈ respActions, nullish a = false) :
    respMapEntries respActions = .ok (respEntriesD respActions) := by
  induction respActions with
  | nil => rfl
  | cons a rest ih =>
    have ha := h a (by simp)
    rw [respMapEntries, fieldStrict_ok _ ha, ih (fun b hb => h b (by simp [hb]))]
    rfl

/-- The unwrap loop: never throws on non-nullish request actions, persists
exactly the request actions whose id finds a truthy response action —
in request order, one call each — and stamps each call with its matched
response action and the status derived from the `state` field of that action. -/
theorem unwrapLoop_spec (uuids : Nat → String) (tabId : Int) (ty : CallType)
    (reqAt respAt : Int) (rmap : List (JSVal × JSVal)) :
    ∀ (req : List JSVal) (k : Nat), (∀ a ∈ req, nullish a = false) →
      (unwrapLoop uuids tabId ty reqAt respAt rmap k req).escaped = none ∧
      (unwrapLoop uuids tabId ty reqAt respAt rmap k req).saved.map
          (fun c => c.requestPayload) =
        req.filter (fun a => truthy ((jsMapGet rmap (fieldOpt a "id")).getD .undefined)) ∧
      ∀ c ∈ (unwrapLoop uuids tabId ty reqAt respAt rmap k req).saved,
        c.responsePayload = (jsMapGet rmap (fieldOpt c.requestPayload "id")).getD .undefined ∧
        c.status = (if stateIsSuccess (fieldOpt c.responsePayload "state") = true
          then CallStatus.Success else CallStatus.Error) := by
  intro req
  induction req with
  | nil =>
    intro k _
    exact ⟨rfl, rfl, fun c hc => absurd hc (by simp [unwrapLoop])⟩
  | cons a rest ih =>
    intro k h
    have ha := h a (by simp)
    have hrest := fun b hb => h b (List.mem_cons_of_mem a hb)
    rcases ht : truthy ((jsMapGet rmap (fieldOpt a "id")).getD .undefined) with _ | _
    · have heq : unwrapLoop uuids tabId ty reqAt respAt rmap k (a :: rest) =
          unwrapLoop uuids tabId ty reqAt respAt rmap k rest := by
        rw [unwrapLoop, fieldStrict_ok _ ha]
        dsimp only
        rw [ht]
        rfl
      rw [heq]
      obtain ⟨e1, e2, e3⟩ := ih k hrest
      refine ⟨e1, ?_, e3⟩
      rw [e2, List.filter_cons, ht]
      rfl
    · have heq : unwrapLoop uuids tabId ty reqAt respAt rmap k (a :: rest) =
          { saved := mkUnwrapCall (uuids k) tabId ty reqAt respAt a
              ((jsMapGet rmap (fieldOpt a "id")).getD .undefined) ::
              (unwrapLoop uuids tabId ty reqAt respAt rmap (k + 1) rest).saved
            escaped := (unwrapLoop uuids tabId ty reqAt respAt rmap (k + 1) rest).escaped } := by
        rw [unwrapLoop, fieldStrict_ok _ ha]
        dsimp only
        rw [ht]
        rfl
      rw [heq]
      obtain ⟨e1, e2, e3⟩ := ih (k + 1) hrest
      refine ⟨e1, ?_, ?_⟩
      · rw [List.map_cons, e2, List.filter_cons, ht]
        rfl
      · intro c hc
        rcases List.mem_cons.mp hc with hc1 | hc2
        · subst hc1
          exact ⟨rfl, rfl⟩
        · exact e3 c hc2

end LightningLens

namespace LightningLens

/-- C1: the batch unwrap walks the actions of the request envelope in their
request-declared order; each request action whose id finds a (truthy)
response action in the response map persists exactly one call — the
request payloads of the persisted calls are exactly the matched request actions
in order — an unmatched request action persists nothing, and each
persisted call carries its matched response action with status `Success`
exactly when the `state` field of that action is the literal `"SUCCESS"` and `Error`
otherwise.  The final conjunct instantiates the scenario given in the spec: request
actions with ids 1, 2, 3 against response results for ids 1 and 3 persist
exactly two calls, for the first and third request actions, with statuses
derived from the two response states. -/
theorem c1_batch_unwrap (uuids : Nat → String) (tabId : Int) (ty : CallType)
    (reqAt respAt : Int) (req resp : List JSVal)
    (h1 : ∀ a ∈ req, nullish a = false) (h2 : ∀ a ∈ resp, nullish a = false) :
    ((unwrapCalls uuids tabId ty reqAt respAt req resp).escaped = none ∧
     (unwrapCalls uuids tabId ty reqAt respAt req resp).saved.map
         (fun c => c.requestPayload) =
       req.filter (fun a => truthy ((jsMapGet (respEntriesD resp) (fieldOpt a "id")).getD .undefined)) ∧
     ∀ c ∈ (unwrapCalls uuids tabId ty reqAt respAt req resp).saved,
       c.responsePayload = (jsMapGet (respEntriesD resp) (fieldOpt c.requestPayload "id")).getD .undefined ∧
       c.status = (if stateIsSuccess (fieldOpt c.responsePayload "state") = true
         then CallStatus.Success else CallStatus.Error)) ∧
    ((unwrapCalls uuids tabId ty reqAt respAt
        [.obj [("id", .str "1"), ("descriptor", .str "A")],
         .obj [("id", .str "2"), ("descriptor", .str "B")],
         .obj [("id", .str "3"), ("descriptor", .str "C")]]
        [.obj [("id", .str "1"), ("state", .str "SUCCESS")],
         .obj [("id", .str "3"), ("state", .str "ERROR")]]).saved.length = 2 ∧
     (unwrapCalls uuids tabId ty reqAt respAt
        [.obj [("id", .str "1"), ("descriptor", .str "A")],
         .obj [("id", .str "2"), ("descriptor", .str "B")],
         .obj [("id", .str "3"), ("descriptor", .str "C")]]
        [.obj [("id", .str "1"), ("state", .str "SUCCESS")],
         .obj [("id", .str "3"), ("state", .str "ERROR")]]).saved.map
         (fun c => c.requestPayload) =
       [.obj [("id", .str "1"), ("descriptor", .str "A")],
        .obj [("id", .str "3"), ("descriptor", .str "C")]] ∧
     (unwrapCalls uuids tabId ty reqAt respAt
        [.obj [("id", .str "1"), ("descriptor", .str "A")],
         .obj [("id", .str "2"), ("descriptor", .str "B")],
         .obj [("id", .str "3"), ("descriptor", .str "C")]]
        [.obj [("id", .str "1"), ("state", .str "SUCCESS")],
         .obj [("id", .str "3"), ("state", .str "ERROR")]]).saved.map
         (fun c => c.status) = [CallStatus.Success, CallStatus.Error]) := by
  constructor
  · have hmap := respMapEntries_ok resp h2
    have hloop := unwrapLoop_spec uuids tabId ty reqAt respAt (respEntriesD resp) req 0 h1
    have hcalls : unwrapCalls uuids tabId ty reqAt respAt req resp =
        unwrapLoop uuids tabId ty reqAt respAt (respEntriesD resp) 0 req := by
      rw [unwrapCalls, hmap]
    rw [hcalls]
    exact hloop
  · exact ⟨rfl, rfl, rfl⟩

/-- C1 witness: the general statement applied to the concrete spec-given
scenario, hypotheses discharged by computation. -/
theorem c1_batch_unwrap_witness :
    (unwrapCalls (fun i => toString i) 1 CallType.ApexAction 100 150
        [.obj [("id", .str "1"), ("descriptor", .str "A")],
         .obj [("id", .str "2"), ("descriptor", .str "B")],
         .obj [("id", .str "3"), ("descriptor", .str "C")]]
        [.obj [("id", .str "1"), ("state", .str "SUCCESS")],
         .obj [("id", .str "3"), ("state", .str "ERROR")]]).escaped = none ∧
    (unwrapCalls (fun i => toString i) 1 CallType.ApexAction 100 150
        [.obj [("id", .str "1"), ("descriptor", .str "A")],
         .obj [("id", .str "2"), ("descriptor", .str "B")],
         .obj [("id", .str "3"), ("descriptor", .str "C")]]
        [.obj [("id", .str "1"), ("state", .str "SUCCESS")],
         .obj [("id", .str "3"), ("state", .str "ERROR")]]).saved.length = 2 := by
  have h := c1_batch_unwrap (fun i => toString i) 1 CallType.ApexAction 100 150
    [.obj [("id", .str "1"), ("descriptor", .str "A")],
     .obj [("id", .str "2"), ("descriptor", .str "B")],
     .obj [("id", .str "3"), ("descriptor", .str "C")]]
    [.obj [("id", .str "1"), ("state", .str "SUCCESS")],
     .obj [("id", .str "3"), ("state", .str "ERROR")]]
    (by intro a ha; simp at ha; rcases ha with rfl | rfl | rfl <;> rfl)
    (by intro a ha; simp at ha; rcases ha with rfl | rfl <;> rfl)
  exact ⟨h.1.1, h.2.1⟩

end LightningLens

namespace LightningLens

/-! ## C2 — retention trimming -/

/-- Strict timestamp order implies the index order. -/
theorem callLe_of_reqLt {a b : ApiCall} (h : reqLt a b) : callLe a b = true := by
  simp [callLe]
  exact Or.inl h

/-- Sorting a list already in index order is the identity. -/
theorem sortCallsAsc_eq_self (l : List ApiCall)
    (h : List.Chain' (fun a b => callLe a b = true) l) : sortCallsAsc l = l := by
  induction l with
  | nil => rfl
  | cons c cs ih =>
    cases cs with
    | nil => rfl
    | cons d ds =>
      have hp := List.chain'_cons.mp h
      rw [sortCallsAsc, ih hp.2]
      simp [insertCall, hp.1]

/-- For a store whose insertion order strictly increases in `requestedAt`,
`listAll` is exactly the reverse of the store. -/
theorem dbListAll_sorted (db : List ApiCall) (h : db.Pairwise reqLt) :
    dbListAll db = db.reverse := by
  rw [dbListAll, sortCallsAsc_eq_self]
  exact List.Chain'.imp (fun a b hab => callLe_of_reqLt hab) h.chain'

/-- Membership makes `contains` true. -/
theorem contains_of_mem {l : List String} {x : String} (h : x ∈ l) : l.contains x = true :=
  List.elem_iff.mpr h

/-- Non-membership makes `contains` false. -/
theorem contains_of_not_mem {l : List String} {x : String} (h : x ∉ l) :
    l.contains x = false := by
  rw [Bool.eq_false_iff]
  intro hc
  exact h (List.elem_iff.mp hc)

/-- Deleting, by id, the reversed first `k` records of a store with
pairwise-distinct ids removes exactly those records. -/
theorem dbDeleteByIds_drop (db' : List ApiCall) (k : Nat)
    (hnodup : (db'.map (fun c => c.id)).Nodup) (hk : 0 < k) (hkle : k ≤ db'.length) :
    dbDeleteByIds db' (((db'.take k).reverse).map (fun c => c.id)) = db'.drop k := by
  have hids : (((db'.take k).reverse).map (fun c => c.id)).length = k := by
    simp [List.length_take, min_eq_left hkle]
  have hdisj : List.Disjoint ((db'.take k).map (fun c => c.id))
      ((db'.drop k).map (fun c => c.id)) := by
    have hnd : ((db'.take k).map (fun c => c.id) ++ (db'.drop k).map (fun c => c.id)).Nodup := by
      rw [← List.map_append, List.take_append_drop]
      exact hnodup
    exact (List.nodup_append.mp hnd).2.2
  have hmem_take : ∀ x ∈ db'.take k,
      (((db'.take k).reverse).map (fun c => c.id)).contains x.id = true := by
    intro x hx
    refine contains_of_mem ?_
    rw [List.mem_map]
    exact ⟨x, List.mem_reverse.mpr hx, rfl⟩
  have hmem_drop : ∀ x ∈ db'.drop k,
      (((db'.take k).reverse).map (fun c => c.id)).contains x.id = false := by
    intro x hx
    refine contains_of_not_mem ?_
    intro hmem
    rw [List.mem_map] at hmem
    obtain ⟨y, hy, hyx⟩ := hmem
    exact hdisj (List.mem_map.mpr ⟨y, List.mem_reverse.mp hy, hyx⟩)
      (List.mem_map_of_mem _ hx)
  generalize hg : ((db'.take k).reverse).map (fun c => c.id) = ids at hids hmem_take hmem_drop ⊢
  rw [dbDeleteByIds, if_neg (by omega)]
  conv_lhs => rw [← List.take_append_drop k db']
  rw [List.filter_append]
  have h1 : (db'.take k).filter (fun c => !(ids.contains c.id)) = [] := by
    rw [List.filter_eq_nil_iff]
    intro x hx
    rw [hmem_take x hx]
    decide
  have h2 : (db'.drop k).filter (fun c => !(ids.contains c.id)) = db'.drop k := by
    rw [List.filter_eq_self]
    intro x hx
    rw [hmem_drop x hx]
    decide
  rw [h1, h2, List.nil_append]

end LightningLens

namespace LightningLens

/-- One write-then-trim on a store in strictly increasing `requestedAt`
order with distinct ids and at most `max` records: the new record is
appended, and when the count now exceeds `max` the oldest excess records
(the front of the store) are deleted — leaving exactly the newest
`max`. -/
theorem writeAndTrim_step (max : Nat) (db : List ApiCall) (c : ApiCall)
    (hsorted : (db ++ [c]).Pairwise reqLt)
    (hnodup : ((db ++ [c]).map (fun x => x.id)).Nodup)
    (hlen : db.length ≤ max) :
    writeAndTrim (max : Int) db c = (db ++ [c]).drop ((db.length + 1) - max) := by
  have hfresh : c.id ∉ db.map (fun x => x.id) := by
    rw [List.map_append] at hnodup
    have hdisj := (List.nodup_append.mp hnodup).2.2
    intro hmem
    exact hdisj hmem (by simp)
  have hany : (List.any db fun x => x.id == c.id) = false := by
    rw [List.any_eq_false]
    intro x hx hbeq
    rw [beq_iff_eq] at hbeq
    exact hfresh (hbeq ▸ List.mem_map_of_mem _ hx)
  have hsave : dbSave db c = .ok (db ++ [c]) := by
    simp [dbSave, hany]
  rw [writeAndTrim, hsave]
  dsimp only
  unfold trimDatabase
  rw [dbListAll_sorted _ hsorted]
  simp only [List.length_reverse, List.length_append, List.length_singleton,
    List.length_nil]
  by_cases hcmp : db.length + 1 > max
  · rw [if_pos (by exact_mod_cast hcmp)]
    have hslice : jsSliceFrom ((db ++ [c]).reverse) (max : Int) =
        ((db ++ [c]).take ((db.length + 1) - max)).reverse := by
      rw [jsSliceFrom, if_neg (by omega)]
      rw [Int.toNat_natCast]
      rw [List.reverse_take]
      congr 1
      simp only [List.length_append, List.length_singleton, List.length_nil]
      omega
    rw [hslice]
    rw [if_pos (by simp only [List.length_map, List.length_reverse, List.length_take,
      List.length_append, List.length_singleton, List.length_nil]; omega)]
    exact dbDeleteByIds_drop (db ++ [c]) ((db.length + 1) - max) hnodup (by omega)
      (by simp only [List.length_append, List.length_singleton, List.length_nil]; omega)
  · rw [if_neg (by exact_mod_cast hcmp)]
    have hz : (db.length + 1) - max = 0 := by omega
    rw [hz, List.drop_zero]

/-- Folding write-then-trim over a batch of strictly increasing, distinct
records keeps exactly the newest `min (total, max)` records: the result is
always the tail of the full insertion sequence. -/
theorem foldl_writeAndTrim (max : Nat) :
    ∀ (calls db : List ApiCall),
      (db ++ calls).Pairwise reqLt →
      ((db ++ calls).map (fun x => x.id)).Nodup →
      db.length ≤ max →
      List.foldl (writeAndTrim (max : Int)) db calls =
        (db ++ calls).drop ((db.length + calls.length) - max) := by
  intro calls
  induction calls with
  | nil =>
    intro db hs hn hl
    rw [List.foldl_nil, List.append_nil]
    have hz : db.length + ([] : List ApiCall).length - max = 0 := by
      simp only [List.length_nil]
      omega
    rw [hz, List.drop_zero]
  | cons c rest ih =>
    intro db hs hn hl
    have hrw : db ++ c :: rest = (db ++ [c]) ++ rest := by simp
    rw [hrw] at hs hn
    have hsort1 : (db ++ [c]).Pairwise reqLt :=
      hs.sublist (List.sublist_append_left _ _)
    have hnodup1 : ((db ++ [c]).map (fun x => x.id)).Nodup :=
      hn.sublist ((List.sublist_append_left _ _).map _)
    rw [List.foldl_cons, writeAndTrim_step max db c hsort1 hnodup1 hl]
    have hsub : List.Sublist ((db ++ [c]).drop ((db.length + 1) - max) ++ rest)
        ((db ++ [c]) ++ rest) :=
      (List.drop_sublist _ _).append_right rest
    have hlen2 : ((db ++ [c]).drop ((db.length + 1) - max)).length ≤ max := by
      simp only [List.length_drop, List.length_append, List.length_singleton,
        List.length_nil]
      omega
    rw [ih _ (hs.sublist hsub) (hn.sublist (hsub.map _)) hlen2]
    have hdef : (db ++ [c]).drop ((db.length + 1) - max) ++ rest =
        ((db ++ [c]) ++ rest).drop ((db.length + 1) - max) :=
      (List.drop_append_of_le_length
        (by simp only [List.length_append, List.length_singleton, List.length_nil]; omega)).symm
    rw [hdef, List.drop_drop, hrw.symm]
    congr 1
    simp only [List.length_drop, List.length_append, List.length_singleton,
      List.length_cons, List.length_nil]
    omega

/-- C2: starting from an empty store, inserting `maxRetained + k` records
(`k > 0`) with strictly increasing `requestedAt` and distinct ids, with the
trim pass running after every write, leaves exactly the last `maxRetained`
records — the most recent ones by `requestedAt` — and exactly
`maxRetained` of them. -/
theorem c2_retention_trim (maxRetained k : Nat) (calls : List ApiCall)
    (hlen : calls.length = maxRetained + k) (hk : 0 < k)
    (hinc : List.Chain' reqLt calls)
    (hids : (calls.map (fun c => c.id)).Nodup) :
    List.foldl (writeAndTrim (maxRetained : Int)) [] calls = calls.drop k ∧
    (calls.drop k).length = maxRetained := by
  have hpair : calls.Pairwise reqLt := List.chain'_iff_pairwise.mp hinc
  have h := foldl_writeAndTrim maxRetained calls [] (by simpa using hpair)
    (by simpa using hids) (by simp)
  constructor
  · rw [h]
    simp only [List.nil_append, List.length_nil, Nat.zero_add]
    congr 1
    omega
  · rw [List.length_drop]
    omega

/-- C2 witness: three records trimmed to a limit of two keep the two most
recent. -/
theorem c2_retention_trim_witness :
    let mk : Nat → ApiCall := fun i =>
      { id := toString i, tabId := 1, requestedAt := (i : Int), respondedAt := (i : Int)
        duration := 0, requestPayload := .undefined, responsePayload := .undefined
        status := CallStatus.Success, type := CallType.Other }
    List.foldl (writeAndTrim ((2 : Nat) : Int)) [] [mk 0, mk 1, mk 2] =
      [mk 1, mk 2] ∧ ([mk 0, mk 1, mk 2].length = 2 + 1 ∧ 0 < 1) := by
  intro mk
  have h := c2_retention_trim 2 1 [mk 0, mk 1, mk 2] rfl (by decide)
    (by norm_num [List.chain'_cons, reqLt]) (by decide)
  refine ⟨?_, rfl, by decide⟩
  rw [h.1]
  rfl

end LightningLens
